import Mathlib

/-!
# PPTist-backend: formal model of the PPTX parsing / style-resolution core

A shallow embedding, in Lean 4, of the parsing and style-resolution core of
the PPTist-backend repository (TypeScript).  Pure functions of the source are
translated into Lean functions; the dynamic `XmlObject` trees produced by the
`fast-xml-parser` normalizer are modelled by the inductive type `Xml` below;
JavaScript-specific behaviour (truthiness, `parseInt` returning `NaN`,
string coercion) is modelled explicitly.  `NaN`-valued numbers are modelled
as `Option` values (`none` = `NaN`); where the source distinguishes
`undefined` from `NaN` for a numeric field that no downstream code inspects,
both are collapsed to `none` (noted at each site).

External libraries used by the source are modelled as follows:

* `fast-xml-parser` (with `attributesGroupName: 'attrs'`): its output is the
  `Xml` tree itself — repeated tags become an `.arr`, attributes are grouped
  under the reserved key `"attrs"`, keys appear in first-occurrence order.
  The variant configuration without `attributesGroupName` (used by
  `parseSlideRels`) is modelled by `ungroupAttrs`, which splices the
  `attrs` children into the element, exactly relating the two outputs.
* `tinycolor2`: its exact hex ↔ HSL conversion formulas are reimplemented
  over `ℚ` (`hexToHslaTC`, `renderHslaTC`); an unparsable color string is
  modelled as black, matching tinycolor's invalid-input rgb(0,0,0).
* `JSZip` / `Buffer`: a zip archive is a list of named entries (`Zip`);
  XML parts store their normalized tree directly (a present-but-empty part
  is modelled as an absent part); `Buffer.toString('base64')` is the real
  base64 encoding `base64Encode`.
* `uuid`'s `uuidv4()` (nondeterministic) is modelled as a fixed placeholder.
-/

namespace PPTist

/-- Normalized XML tree, as produced by `fast-xml-parser` with
`attributesGroupName: 'attrs'`: an element is a map from child-tag name to a
single node or an ordered list of nodes, attributes live under the reserved
key `"attrs"`, text payloads are strings. -/
inductive Xml where
  | text (s : String)
  | arr (items : List Xml)
  | obj (fields : List (String × Xml))
deriving Repr

/-- JS object property lookup (objects have unique keys; first match). -/
def lookupField : List (String × Xml) → String → Option Xml
  | [], _ => none
  | (k, v) :: rest, key => if k = key then some v else lookupField rest key

/-- `x[key]` on an `Xml` value: property access is only meaningful on
objects; on strings and arrays the tag-name keys used by the source always
yield `undefined`. -/
def Xml.get : Xml → String → Option Xml
  | .obj fields, key => lookupField fields key
  | _, _ => none

/-- `x?.[key]` (optional chaining). -/
def Xml.getOpt : Option Xml → String → Option Xml
  | some x, key => x.get key
  | none, _ => none

/-- JS truthiness of an `XmlObject`-typed value: objects and arrays are
always truthy, a string is truthy iff non-empty. -/
def jsTruthy : Xml → Bool
  | .text s => s ≠ ""
  | _ => true

/-- Truthiness of a possibly-`undefined` value. -/
def jsTruthyOpt : Option Xml → Bool
  | some v => jsTruthy v
  | none => false

mutual
/-- JS `String(x)` coercion of an XML value. -/
def jsString : Xml → String
  | .text s => s
  | .obj _ => "[object Object]"
  | .arr items => jsStringList items

/-- JS `String(array)`: elements joined by commas. -/
def jsStringList : List Xml → String
  | [] => ""
  | [x] => jsString x
  | x :: y :: rest => jsString x ++ "," ++ jsStringList (y :: rest)
end

/-- The pervasive source pattern `(value as string) || default`: a truthy
value is coerced to a string, `undefined` / `''` fall back to the default. -/
def jsOrString (o : Option Xml) (d : String) : String :=
  match o with
  | some v => if jsTruthy v then jsString v else d
  | none => d

/-- `getTextByPathList` (color-resolver.ts): walk a key path through the
tree, `undefined` as soon as a step is missing or lands on a non-object. -/
def getTextByPathList (obj : Option Xml) (pathList : List String) : Option Xml :=
  pathList.foldl (fun current key => Xml.getOpt current key) obj

/-- `Array.isArray(x) ? x : x ? [x] : []`. -/
def jsToArray (o : Option Xml) : List Xml :=
  match o with
  | some (.arr items) => items
  | some v => if jsTruthy v then [v] else []
  | none => []

/-! The following structural reimplementations of core string operations
(`trim`, `startsWith`, `drop`, `toLower`, `split`) work directly on the
character list, so that concrete runs of the model reduce inside the
kernel; each matches the JS behaviour on the inputs the source feeds it. -/

/-- JS `String.trim` (ASCII whitespace). -/
def trimTS (s : String) : String :=
  ⟨((s.data.dropWhile Char.isWhitespace).reverse.dropWhile Char.isWhitespace).reverse⟩

/-- JS `s.startsWith(p)`. -/
def strStartsWith (s p : String) : Bool :=
  p.data.isPrefixOf s.data

/-- JS `s.substring(n)` / Lean `String.drop` for character counts. -/
def strDrop (s : String) (n : Nat) : String :=
  ⟨s.data.drop n⟩

/-- JS `s.toLowerCase()` (ASCII). -/
def strToLower (s : String) : String :=
  ⟨s.data.map fun c => if 'A' ≤ c ∧ c ≤ 'Z' then Char.ofNat (c.toNat + 32) else c⟩

/-- JS `s.split(sep)` for a one-character separator. -/
def splitOnCharTS (s : String) (sep : Char) : List String :=
  let rec go : List Char → List Char → List String
    | [], acc => [⟨acc.reverse⟩]
    | c :: rest, acc =>
      if c = sep then (⟨acc.reverse⟩ : String) :: go rest []
      else go rest (c :: acc)
  go s.data []

/-- Leading decimal digits of a character list. -/
def leadingDigits : List Char → List Char
  | [] => []
  | c :: rest => if c.isDigit then c :: leadingDigits rest else []

/-- Value of a list of decimal digit characters. -/
def digitsVal (cs : List Char) : Nat :=
  cs.foldl (fun acc c => acc * 10 + (c.toNat - '0'.toNat)) 0

/-- JS `parseInt(s, 10)` (`none` = `NaN`): skip whitespace, optional sign,
then the maximal run of leading decimal digits; no digits means `NaN`.
(The no-radix calls in the source only ever see decimal attribute strings,
so the `0x` hex form is not modelled.) -/
def parseIntTS (s : String) : Option Int :=
  let cs := (trimTS s).data
  let signAndRest : Int × List Char :=
    match cs with
    | '-' :: rest => (-1, rest)
    | '+' :: rest => (1, rest)
    | _ => (1, cs)
  let ds := leadingDigits signAndRest.2
  if ds.isEmpty then none else some (signAndRest.1 * (digitsVal ds : Int))

/-- JS `parseFloat(s)` (`none` = `NaN`), for the decimal forms the source
feeds it (optional sign, digits, optional fraction; no exponent). -/
def parseFloatTS (s : String) : Option ℚ :=
  let cs := (trimTS s).data
  let signAndRest : ℚ × List Char :=
    match cs with
    | '-' :: rest => (-1, rest)
    | '+' :: rest => (1, rest)
    | _ => (1, cs)
  let intDs := leadingDigits signAndRest.2
  let afterInt := signAndRest.2.drop intDs.length
  let fracDs :=
    match afterInt with
    | '.' :: rest => leadingDigits rest
    | _ => []
  if intDs.isEmpty ∧ fracDs.isEmpty then none
  else
    some (signAndRest.1 *
      ((digitsVal intDs : ℚ) + (digitsVal fracDs : ℚ) / (10 : ℚ) ^ fracDs.length))

/-- `s.replace(first, repl)` for a literal pattern: JS `String.replace`
replaces only the first occurrence. -/
def replaceFirst (s pattern repl : String) : String :=
  if pattern = "" then s
  else
    let rec go : List Char → List Char
      | [] => []
      | c :: rest =>
        if pattern.data.isPrefixOf (c :: rest) then
          repl.data ++ (c :: rest).drop pattern.length
        else c :: go rest
    String.mk (go s.data)

/-- `s.includes(sub)`. -/
def containsSubstr (s sub : String) : Bool :=
  let rec go : List Char → Bool
    | [] => sub = ""
    | c :: rest =>
      sub.data.isPrefixOf (c :: rest) || go rest
  go s.data

/-- Strict string equality with an XML value (`x === 'lit'` in the source):
true iff the value is exactly that text node. -/
def strEq (o : Option Xml) (lit : String) : Bool :=
  match o with
  | some (.text s) => s = lit
  | _ => false

/-- JS `Math.round` (half-up) on a rational. -/
def roundTS (q : ℚ) : Int :=
  ⌊q + 1 / 2⌋

/-! ## Model of `tinycolor2`'s hex ↔ HSL conversions (color-resolver.ts) -/

/-- Value of one hexadecimal digit. -/
def hexVal (c : Char) : Option Nat :=
  if '0' ≤ c ∧ c ≤ '9' then some (c.toNat - '0'.toNat)
  else if 'a' ≤ c ∧ c ≤ 'f' then some (c.toNat - 'a'.toNat + 10)
  else if 'A' ≤ c ∧ c ≤ 'F' then some (c.toNat - 'A'.toNat + 10)
  else none

/-- Two hex digits as a byte. -/
def hexByte (c1 c2 : Char) : Option Nat :=
  match hexVal c1, hexVal c2 with
  | some a, some b => some (a * 16 + b)
  | _, _ => none

/-- tinycolor's hex color parser: optional `#`, then 3/4/6/8 hex digits
(`RGB`, `RGBA`, `RRGGBB`, `RRGGBBAA`; alpha last, as a fraction of 255). -/
def parseHexColorTS (s : String) : Option (Nat × Nat × Nat × ℚ) :=
  let t := trimTS s
  let t := if strStartsWith t "#" then strDrop t 1 else t
  match t.data with
  | [r1, r2, g1, g2, b1, b2] =>
    match hexByte r1 r2, hexByte g1 g2, hexByte b1 b2 with
    | some r, some g, some b => some (r, g, b, 1)
    | _, _, _ => none
  | [r1, r2, g1, g2, b1, b2, a1, a2] =>
    match hexByte r1 r2, hexByte g1 g2, hexByte b1 b2, hexByte a1 a2 with
    | some r, some g, some b, some a => some (r, g, b, (a : ℚ) / 255)
    | _, _, _, _ => none
  | [r, g, b] =>
    match hexByte r r, hexByte g g, hexByte b b with
    | some r', some g', some b' => some (r', g', b', 1)
    | _, _, _ => none
  | [r, g, b, a] =>
    match hexByte r r, hexByte g g, hexByte b b, hexByte a a with
    | some r', some g', some b', some a' => some (r', g', b', (a' : ℚ) / 255)
    | _, _, _, _ => none
  | _ => none

/-- An HSL color with alpha, the state threaded between tinycolor
conversions (`h` scaled to degrees as `toHsl()` returns it). -/
structure Hsla where
  h : ℚ
  s : ℚ
  l : ℚ
  a : ℚ
deriving Repr, DecidableEq

/-- tinycolor `rgbToHsl` (components 0–255), with `toHsl()`'s `h * 360`. -/
def rgbToHslTC (r g b : Nat) : ℚ × ℚ × ℚ :=
  let r' : ℚ := (r : ℚ) / 255
  let g' : ℚ := (g : ℚ) / 255
  let b' : ℚ := (b : ℚ) / 255
  let mx := max r' (max g' b')
  let mn := min r' (min g' b')
  let l := (mx + mn) / 2
  if mx = mn then (0, 0, l)
  else
    let d := mx - mn
    let s := if l > 1 / 2 then d / (2 - mx - mn) else d / (mx + mn)
    let h :=
      if mx = r' then (g' - b') / d + (if g' < b' then 6 else 0)
      else if mx = g' then (b' - r') / d + 2
      else (r' - g') / d + 4
    (h / 6 * 360, s, l)

/-- tinycolor `bound01` on a plain number. -/
def bound01Num (n mx : ℚ) : ℚ :=
  let n' := min mx (max 0 n)
  if |n' - mx| < 1 / 1000000 then 1 else n' / mx

/-- tinycolor input normalization for `s` / `l`: values ≤ 1 go through
`convertToPercentage` (scaled to a percent string, truncated to two decimals
by `parseInt`), larger values through the plain-number `bound01`. -/
def normSL (n : ℚ) : ℚ :=
  if n ≤ 1 then
    let p := min 100 (max 0 (n * 100))
    let p2 := (⌊p * 100⌋ : ℚ) / 100
    if |p2 - 100| < 1 / 1000000 then 1 else p2 / 100
  else bound01Num n 100

/-- tinycolor `boundAlpha`: out-of-range alpha collapses to 1. -/
def boundAlpha (a : ℚ) : ℚ :=
  if a < 0 ∨ 1 < a then 1 else a

/-- tinycolor `hue2rgb`. -/
def hue2rgb (p q t : ℚ) : ℚ :=
  let t := if t < 0 then t + 1 else t
  let t := if t > 1 then t - 1 else t
  if t < 1 / 6 then p + (q - p) * 6 * t
  else if t < 1 / 2 then q
  else if t < 2 / 3 then p + (q - p) * (2 / 3 - t) * 6
  else p

/-- tinycolor `hslToRgb` (with its input normalization), components 0–255. -/
def hslToRgbTC (h s l : ℚ) : ℚ × ℚ × ℚ :=
  let h' := bound01Num h 360
  let s' := normSL s
  let l' := normSL l
  if s' = 0 then (l' * 255, l' * 255, l' * 255)
  else
    let q := if l' < 1 / 2 then l' * (1 + s') else l' + s' - l' * s'
    let p := 2 * l' - q
    (hue2rgb p q (h' + 1 / 3) * 255, hue2rgb p q h' * 255, hue2rgb p q (h' - 1 / 3) * 255)

/-- JS `Nat.toString(16)` (lowercase); fuel-structured so that it reduces
in the kernel (the fuel `n + 1` always suffices). -/
def natHexStr (n : Nat) : String :=
  let hexDigit (d : Nat) : Char :=
    if d < 10 then Char.ofNat ('0'.toNat + d) else Char.ofNat ('a'.toNat + d - 10)
  let rec go : Nat → Nat → List Char → List Char
    | 0, n, acc => hexDigit n :: acc
    | fuel + 1, n, acc =>
      if n < 16 then hexDigit n :: acc
      else go fuel (n / 16) (hexDigit (n % 16) :: acc)
  String.mk (go n n [])

/-- tinycolor `pad2`. -/
def pad2 (s : String) : String :=
  if s.length = 1 then "0" ++ s else s

/-- `tinycolor(hexString).toHsl()`: an unparsable string is modelled as
tinycolor's invalid-input black. -/
def hexToHslaTC (s : String) : Hsla :=
  match parseHexColorTS s with
  | some (r, g, b, a) =>
    let hsl := rgbToHslTC r g b
    ⟨hsl.1, hsl.2.1, hsl.2.2, a⟩
  | none => ⟨0, 0, 0, 1⟩

/-- `tinycolor(hslaObject).toHex()` / `.toHex8()` (no `#`, lowercase;
`toHex8` appends the alpha byte). -/
def renderHslaTC (c : Hsla) (hex8 : Bool) : String :=
  let rgb := hslToRgbTC c.h c.s c.l
  let a := boundAlpha c.a
  let hex := pad2 (natHexStr (roundTS rgb.1).toNat)
    ++ pad2 (natHexStr (roundTS rgb.2.1).toNat)
    ++ pad2 (natHexStr (roundTS rgb.2.2).toNat)
  if hex8 then hex ++ pad2 (natHexStr (roundTS (a * 255)).toNat) else hex

/-! ## Color modifier functions (color-resolver.ts `applyShade` … `applySatMod`)

Each source function is `tinycolor(hex).toHsl()`, an HSL-level operation, then
`toHex`/`toHex8`; the HSL-level cores are factored out below exactly as the
source computes them. -/

/-- HSL core of `applyShade`: `shadeValue = Math.min(shadeValue, 1);
newL = Math.min(color.l * shadeValue, 1)`. -/
def shadeHsl (c : Hsla) (shadeValue : ℚ) : Hsla :=
  let sv := min shadeValue 1
  { c with l := min (c.l * sv) 1 }

/-- HSL core of `applyTint`: `tintValue = Math.min(tintValue, 1);
newL = color.l * tintValue + (1 - tintValue)`. -/
def tintHsl (c : Hsla) (tintValue : ℚ) : Hsla :=
  let tv := min tintValue 1
  { c with l := c.l * tv + (1 - tv) }

/-- HSL core of `applyLumOff`: `newL = Math.min(offset + color.l, 1)`. -/
def lumOffHsl (c : Hsla) (offset : ℚ) : Hsla :=
  { c with l := min (offset + c.l) 1 }

/-- HSL core of `applyLumMod`: `newL = Math.min(color.l * multiplier, 1)`. -/
def lumModHsl (c : Hsla) (multiplier : ℚ) : Hsla :=
  { c with l := min (c.l * multiplier) 1 }

/-- HSL core of `applyHueMod`: `newH = color.h * multiplier;
if (newH >= 360) newH -= 360`. -/
def hueModHsl (c : Hsla) (multiplier : ℚ) : Hsla :=
  let newH := c.h * multiplier
  { c with h := if newH ≥ 360 then newH - 360 else newH }

/-- HSL core of `applySatMod`: `newS = Math.min(color.s * multiplier, 1)`. -/
def satModHsl (c : Hsla) (multiplier : ℚ) : Hsla :=
  { c with s := min (c.s * multiplier) 1 }

/-- `applyShade` (color-resolver.ts). -/
def applyShade (hexColor : String) (shadeValue : ℚ) (hasAlpha : Bool) : String :=
  renderHslaTC (shadeHsl (hexToHslaTC hexColor) shadeValue) hasAlpha

/-- `applyTint` (color-resolver.ts). -/
def applyTint (hexColor : String) (tintValue : ℚ) (hasAlpha : Bool) : String :=
  renderHslaTC (tintHsl (hexToHslaTC hexColor) tintValue) hasAlpha

/-- `applyLumOff` (color-resolver.ts). -/
def applyLumOff (hexColor : String) (offset : ℚ) (hasAlpha : Bool) : String :=
  renderHslaTC (lumOffHsl (hexToHslaTC hexColor) offset) hasAlpha

/-- `applyLumMod` (color-resolver.ts). -/
def applyLumMod (hexColor : String) (multiplier : ℚ) (hasAlpha : Bool) : String :=
  renderHslaTC (lumModHsl (hexToHslaTC hexColor) multiplier) hasAlpha

/-- `applyHueMod` (color-resolver.ts). -/
def applyHueMod (hexColor : String) (multiplier : ℚ) (hasAlpha : Bool) : String :=
  renderHslaTC (hueModHsl (hexToHslaTC hexColor) multiplier) hasAlpha

/-- `applySatMod` (color-resolver.ts). -/
def applySatMod (hexColor : String) (multiplier : ℚ) (hasAlpha : Bool) : String :=
  renderHslaTC (satModHsl (hexToHslaTC hexColor) multiplier) hasAlpha

/-- `tinycolor(color).setAlpha(a).toHex8()` used by the `mergeAlpha` branch
of `applyColorModifiers`. -/
def setAlphaHex8 (color : String) (alphaValue : ℚ) : String :=
  let rgba := (parseHexColorTS color).getD (0, 0, 0, 1)
  let a := boundAlpha alphaValue
  pad2 (natHexStr rgba.1) ++ pad2 (natHexStr rgba.2.1) ++ pad2 (natHexStr rgba.2.2.1)
    ++ pad2 (natHexStr (roundTS (a * 255)).toNat)

/-- `parseInt(getTextByPathList(clrNode, [tag, 'attrs', 'val']) as string
|| '') / 100000`: the per-modifier value parse of `applyColorModifiers`
(`none` = `NaN`). -/
def parseModVal (clrNode : Xml) (tag : String) : Option ℚ :=
  (parseIntTS (jsOrString (getTextByPathList (some clrNode) [tag, "attrs", "val"]) "")).map
    (fun v => (v : ℚ) / 100000)

/-- Result of `applyColorModifiers` / `resolveSolidFillWithAlpha`: a color
string plus an optional separate alpha. -/
structure ColorAlpha where
  color : String
  alpha : Option ℚ
deriving Repr, DecidableEq

/-- `applyColorModifiers` (color-resolver.ts): alpha first (merged into the
hex or kept separate), then `hueMod`, `lumMod`, `lumOff`, `satMod`, `shade`,
`tint`, each `isNaN`-guarded. -/
def applyColorModifiers (color : String) (clrNode : Xml) (mergeAlpha : Bool) : ColorAlpha :=
  let alphaValue := parseModVal clrNode "a:alpha"
  let state : String × Option ℚ × Bool :=
    match alphaValue with
    | some av =>
      if mergeAlpha then (setAlphaHex8 color av, none, true)
      else (color, some av, false)
    | none => (color, none, false)
  let hasAlpha := state.2.2
  let resultColor := state.1
  let resultColor :=
    match parseModVal clrNode "a:hueMod" with
    | some v => applyHueMod resultColor v hasAlpha
    | none => resultColor
  let resultColor :=
    match parseModVal clrNode "a:lumMod" with
    | some v => applyLumMod resultColor v hasAlpha
    | none => resultColor
  let resultColor :=
    match parseModVal clrNode "a:lumOff" with
    | some v => applyLumOff resultColor v hasAlpha
    | none => resultColor
  let resultColor :=
    match parseModVal clrNode "a:satMod" with
    | some v => applySatMod resultColor v hasAlpha
    | none => resultColor
  let resultColor :=
    match parseModVal clrNode "a:shade" with
    | some v => applyShade resultColor v hasAlpha
    | none => resultColor
  let resultColor :=
    match parseModVal clrNode "a:tint" with
    | some v => applyTint resultColor v hasAlpha
    | none => resultColor
  { color := resultColor, alpha := state.2.1 }

/-- The modifier order fixed by the spec (§4.3 step 3): hue modulation, then
luminance modulation, luminance offset, saturation modulation, shade, tint —
each an operation on the HSL representation of the previous step's color. -/
def specModifierOps : List (String × (Hsla → ℚ → Hsla)) :=
  [("a:hueMod", hueModHsl), ("a:lumMod", lumModHsl), ("a:lumOff", lumOffHsl),
   ("a:satMod", satModHsl), ("a:shade", shadeHsl), ("a:tint", tintHsl)]

/-- The spec's description of modifier application: the alpha modifier is
tracked separately (merged into an 8-digit hex or returned as a number — it
is not an HSL operation), and the remaining modifiers present on the color
node are folded over the color, in the fixed order of `specModifierOps`,
each converting the previous step's color to HSL, operating on it, and
rendering it back. -/
def applyColorModifiersSpec (color : String) (clrNode : Xml) (mergeAlpha : Bool) : ColorAlpha :=
  let alphaValue := parseModVal clrNode "a:alpha"
  let state : String × Option ℚ × Bool :=
    match alphaValue with
    | some av =>
      if mergeAlpha then (setAlphaHex8 color av, none, true)
      else (color, some av, false)
    | none => (color, none, false)
  let hasAlpha := state.2.2
  let finalColor := specModifierOps.foldl
    (fun acc op =>
      match parseModVal clrNode op.1 with
      | some v => renderHslaTC (op.2 (hexToHslaTC acc) v) hasAlpha
      | none => acc)
    state.1
  { color := finalColor, alpha := state.2.1 }

/-! ## Parsing context and scheme-color resolution (color-resolver.ts) -/

/-- A resolved relationship entry (`ResourceMap` values). -/
structure Resource where
  type : String
  target : String
deriving Repr, DecidableEq

/-- `ResourceMap`: relationship id → resource. -/
abbrev ResourceMap := List (String × Resource)

/-- `IndexTables` (placeholder lookup tables built by `indexNodes`). -/
structure IndexTables where
  idTable : List (String × Xml)
  idxTable : List (String × Xml)
  typeTable : List (String × Xml)

/-- `createEmptyIndexTables`. -/
def createEmptyIndexTables : IndexTables :=
  ⟨[], [], []⟩

/-- `ParsingContext` (context/parsing-context.ts): the per-slide bundle of
normalized slide/layout/master/theme trees, theme palette, and relationship
maps. -/
structure ParsingContext where
  slideContent : Option Xml
  slideLayoutContent : Option Xml
  slideMasterContent : Option Xml
  themeContent : Option Xml
  themeColors : List String
  defaultTextStyle : Option Xml
  slideLayoutTables : IndexTables
  slideMasterTables : IndexTables
  slideMasterTextStyles : Option Xml
  slideResObj : ResourceMap
  layoutResObj : ResourceMap
  masterResObj : ResourceMap
  slideIndex : Nat

/-- Modelled from the spec: `createDefaultParsingContext`
(context/parsing-context.ts is not included under src/; per the spec §3 the
context starts from empty normalized trees and empty relationship maps and
is filled per slide). -/
def createDefaultParsingContext : ParsingContext :=
  { slideContent := none
    slideLayoutContent := none
    slideMasterContent := none
    themeContent := none
    themeColors := []
    defaultTextStyle := none
    slideLayoutTables := createEmptyIndexTables
    slideMasterTables := createEmptyIndexTables
    slideMasterTextStyles := none
    slideResObj := []
    layoutResObj := []
    masterResObj := []
    slideIndex := 0 }

/-- `PRESET_COLORS` (color-resolver.ts): CSS preset color names. -/
def PRESET_COLORS : List (String × String) :=
  [("white", "FFFFFF"), ("black", "000000"), ("red", "FF0000"), ("green", "00FF00"),
   ("blue", "0000FF"), ("yellow", "FFFF00"), ("cyan", "00FFFF"), ("magenta", "FF00FF"),
   ("aliceblue", "F0F8FF"), ("antiquewhite", "FAEBD7"), ("aqua", "00FFFF"),
   ("aquamarine", "7FFFD4"), ("azure", "F0FFFF"), ("beige", "F5F5DC"),
   ("bisque", "FFE4C4"), ("blanchedalmond", "FFEBCD"), ("blueviolet", "8A2BE2"),
   ("brown", "A52A2A"), ("burlywood", "DEB887"), ("cadetblue", "5F9EA0"),
   ("chartreuse", "7FFF00"), ("chocolate", "D2691E"), ("coral", "FF7F50"),
   ("cornflowerblue", "6495ED"), ("cornsilk", "FFF8DC"), ("crimson", "DC143C"),
   ("darkblue", "00008B"), ("darkcyan", "008B8B"), ("darkgoldenrod", "B8860B"),
   ("darkgray", "A9A9A9"), ("darkgrey", "A9A9A9"), ("darkgreen", "006400"),
   ("darkkhaki", "BDB76B"), ("darkmagenta", "8B008B"), ("darkolivegreen", "556B2F"),
   ("darkorange", "FF8C00"), ("darkorchid", "9932CC"), ("darkred", "8B0000"),
   ("darksalmon", "E9967A"), ("darkseagreen", "8FBC8F"), ("darkslateblue", "483D8B"),
   ("darkslategray", "2F4F4F"), ("darkslategrey", "2F4F4F"), ("darkturquoise", "00CED1"),
   ("darkviolet", "9400D3"), ("deeppink", "FF1493"), ("deepskyblue", "00BFFF"),
   ("dimgray", "696969"), ("dimgrey", "696969"), ("dodgerblue", "1E90FF"),
   ("firebrick", "B22222"), ("floralwhite", "FFFAF0"), ("forestgreen", "228B22"),
   ("fuchsia", "FF00FF"), ("gainsboro", "DCDCDC"), ("ghostwhite", "F8F8FF"),
   ("gold", "FFD700"), ("goldenrod", "DAA520"), ("gray", "808080"), ("grey", "808080"),
   ("greenyellow", "ADFF2F"), ("honeydew", "F0FFF0"), ("hotpink", "FF69B4"),
   ("indianred", "CD5C5C"), ("indigo", "4B0082"), ("ivory", "FFFFF0"),
   ("khaki", "F0E68C"), ("lavender", "E6E6FA"), ("lavenderblush", "FFF0F5"),
   ("lawngreen", "7CFC00"), ("lemonchiffon", "FFFACD"), ("lightblue", "ADD8E6"),
   ("lightcoral", "F08080"), ("lightcyan", "E0FFFF"), ("lightgoldenrodyellow", "FAFAD2"),
   ("lightgray", "D3D3D3"), ("lightgrey", "D3D3D3"), ("lightgreen", "90EE90"),
   ("lightpink", "FFB6C1"), ("lightsalmon", "FFA07A"), ("lightseagreen", "20B2AA"),
   ("lightskyblue", "87CEFA"), ("lightslategray", "778899"), ("lightslategrey", "778899"),
   ("lightsteelblue", "B0C4DE"), ("lightyellow", "FFFFE0"), ("lime", "00FF00"),
   ("limegreen", "32CD32"), ("linen", "FAF0E6"), ("maroon", "800000"),
   ("mediumaquamarine", "66CDAA"), ("mediumblue", "0000CD"), ("mediumorchid", "BA55D3"),
   ("mediumpurple", "9370DB"), ("mediumseagreen", "3CB371"), ("mediumslateblue", "7B68EE"),
   ("mediumspringgreen", "00FA9A"), ("mediumturquoise", "48D1CC"),
   ("mediumvioletred", "C71585"), ("midnightblue", "191970"), ("mintcream", "F5FFFA"),
   ("mistyrose", "FFE4E1"), ("moccasin", "FFE4B5"), ("navajowhite", "FFDEAD"),
   ("navy", "000080"), ("oldlace", "FDF5E6"), ("olive", "808000"),
   ("olivedrab", "6B8E23"), ("orange", "FFA500"), ("orangered", "FF4500"),
   ("orchid", "DA70D6"), ("palegoldenrod", "EEE8AA"), ("palegreen", "98FB98"),
   ("paleturquoise", "AFEEEE"), ("palevioletred", "DB7093"), ("papayawhip", "FFEFD5"),
   ("peachpuff", "FFDAB9"), ("peru", "CD853F"), ("pink", "FFC0CB"), ("plum", "DDA0DD"),
   ("powderblue", "B0E0E6"), ("purple", "800080"), ("rebeccapurple", "663399"),
   ("rosybrown", "BC8F8F"), ("royalblue", "4169E1"), ("saddlebrown", "8B4513"),
   ("salmon", "FA8072"), ("sandybrown", "F4A460"), ("seagreen", "2E8B57"),
   ("seashell", "FFF5EE"), ("sienna", "A0522D"), ("silver", "C0C0C0"),
   ("skyblue", "87CEEB"), ("slateblue", "6A5ACD"), ("slategray", "708090"),
   ("slategrey", "708090"), ("snow", "FFFAFA"), ("springgreen", "00FF7F"),
   ("steelblue", "4682B4"), ("tan", "D2B48C"), ("teal", "008080"),
   ("thistle", "D8BFD8"), ("tomato", "FF6347"), ("turquoise", "40E0D0"),
   ("violet", "EE82EE"), ("wheat", "F5DEB3"), ("whitesmoke", "F5F5F5"),
   ("yellowgreen", "9ACD32")]

/-- String-keyed lookup in a constant table. -/
def tableLookup : List (String × String) → String → Option String
  | [], _ => none
  | (k, v) :: rest, key => if k = key then some v else tableLookup rest key

/-- `schemeClr.replace(/^a:/, '')`. -/
def stripSchemeName (s : String) : String :=
  if strStartsWith s "a:" then strDrop s 2 else s

/-- Truthiness of an optional string (`phClr` in the source). -/
def jsTruthyStr : Option String → Bool
  | some s => s ≠ ""
  | none => false

/-- `getSchemeColorFromTheme` (color-resolver.ts): pick the color-map
override (explicit `clrMap` argument, else slide override, else layout
override, else the master's base `p:clrMap`), remap `tx1`/`tx2`/`bg1`/`bg2`
through it (other names unchanged), then read the mapped slot from the
theme's color scheme (`a:srgbClr` `val`, falling back to `a:sysClr`
`lastClr`). -/
def getSchemeColorFromTheme (schemeClr : String) (context : ParsingContext)
    (clrMap : Option Xml) (phClr : Option String) : String :=
  let slideLayoutClrOvride : Option Xml :=
    match clrMap with
    | some m => some m
    | none =>
      let sldClrMapOvr := getTextByPathList context.slideContent
        ["p:sld", "p:clrMapOvr", "a:overrideClrMapping", "attrs"]
      if jsTruthyOpt sldClrMapOvr then sldClrMapOvr
      else
        let layoutClrMapOvr := getTextByPathList context.slideLayoutContent
          ["p:sldLayout", "p:clrMapOvr", "a:overrideClrMapping", "attrs"]
        if jsTruthyOpt layoutClrMapOvr then layoutClrMapOvr
        else getTextByPathList context.slideMasterContent ["p:sldMaster", "p:clrMap", "attrs"]
  let schmClrName := stripSchemeName schemeClr
  if schmClrName = "phClr" ∧ jsTruthyStr phClr then (phClr.getD "")
  else
    let mappedSchemeClr :=
      if jsTruthyOpt slideLayoutClrOvride then
        if schmClrName = "tx1" ∨ schmClrName = "tx2" ∨ schmClrName = "bg1" ∨ schmClrName = "bg2" then
          "a:" ++ jsOrString (Xml.getOpt slideLayoutClrOvride schmClrName) schmClrName
        else schemeClr
      else
        -- the source's default-mapping `switch` compares the *prefixed*
        -- `schemeClr`, so for inputs of the form `a:tx1` no case matches
        if schemeClr = "tx1" then "a:dk1"
        else if schemeClr = "tx2" then "a:dk2"
        else if schemeClr = "bg1" then "a:lt1"
        else if schemeClr = "bg2" then "a:lt2"
        else schemeClr
    let refNode := getTextByPathList context.themeContent
      ["a:theme", "a:themeElements", "a:clrScheme", mappedSchemeClr]
    let color := jsOrString (getTextByPathList refNode ["a:srgbClr", "attrs", "val"]) ""
    if color = "" ∧ refNode.isSome then
      jsOrString (getTextByPathList refNode ["a:sysClr", "attrs", "lastClr"]) ""
    else color

/-! ## Base-color parsing and the two solid-fill entry points -/

/-- `x['attrs'] || {}`. -/
def jsOrObj (o : Option Xml) : Xml :=
  match o with
  | some v => if jsTruthy v then v else .obj []
  | none => .obj []

/-- `toHex` (color-resolver.ts): clamp to 0–255, `Math.round`, lowercase
hex, pad to two digits; `none` (`NaN`) renders as JS's `'NaN'`. -/
def toHexJS (o : Option ℚ) : String :=
  match o with
  | none => "NaN"
  | some v => pad2 (natHexStr (roundTS (min 255 (max 0 v))).toNat)

/-- `hslToRgb` (color-resolver.ts's own helper, lines 220–244): hue in
degrees, returns `Math.round`ed 0–255 components. -/
def hslToRgbCR (hue sat light : ℚ) : Int × Int × Int :=
  let hueToRgb (t1 t2 h : ℚ) : ℚ :=
    let h := if h < 0 then h + 6 else h
    let h := if h ≥ 6 then h - 6 else h
    if h < 1 then (t2 - t1) * h + t1
    else if h < 3 then t2
    else if h < 4 then (t2 - t1) * (4 - h) + t1
    else t1
  let hueNorm := hue / 60
  let t2 := if light ≤ 1 / 2 then light * (sat + 1) else light + sat - light * sat
  let t1 := light * 2 - t2
  (roundTS (hueToRgb t1 t2 (hueNorm + 2) * 255),
   roundTS (hueToRgb t1 t2 hueNorm * 255),
   roundTS (hueToRgb t1 t2 (hueNorm - 2) * 255))

/-- `ColorParseResult` (color-resolver.ts): base color value plus the color
node carrying the modifiers. -/
structure ColorParseResult where
  color : String
  clrNode : Option Xml

/-- `parseBaseColor` (color-resolver.ts): identify the color-source variant
present on the `solidFill` node (`srgbClr`, `schemeClr`, `scrgbClr`,
`prstClr`, `hslClr`, `sysClr`) and extract its base color, without applying
modifiers. -/
def parseBaseColor (solidFill : Xml) (context : ParsingContext)
    (clrMap : Option Xml) (phClr : Option String) : ColorParseResult :=
  if jsTruthyOpt (solidFill.get "a:srgbClr") then
    { color := jsOrString (getTextByPathList (solidFill.get "a:srgbClr") ["attrs", "val"]) ""
      clrNode := solidFill.get "a:srgbClr" }
  else if jsTruthyOpt (solidFill.get "a:schemeClr") then
    let clrNode := solidFill.get "a:schemeClr"
    let schemeClr := "a:" ++ jsOrString (getTextByPathList clrNode ["attrs", "val"]) ""
    { color := getSchemeColorFromTheme schemeClr context clrMap phClr, clrNode }
  else if jsTruthyOpt (solidFill.get "a:scrgbClr") then
    let clrNode := solidFill.get "a:scrgbClr"
    let attrs := jsOrObj (Xml.getOpt clrNode "attrs")
    let r := (parseFloatTS (replaceFirst (jsOrString (attrs.get "r") "0") "%" "")).map (· / 100)
    let g := (parseFloatTS (replaceFirst (jsOrString (attrs.get "g") "0") "%" "")).map (· / 100)
    let b := (parseFloatTS (replaceFirst (jsOrString (attrs.get "b") "0") "%" "")).map (· / 100)
    { color := toHexJS (r.map (255 * ·)) ++ toHexJS (g.map (255 * ·)) ++ toHexJS (b.map (255 * ·))
      clrNode }
  else if jsTruthyOpt (solidFill.get "a:prstClr") then
    let clrNode := solidFill.get "a:prstClr"
    let prstClr := jsOrString (getTextByPathList clrNode ["attrs", "val"]) ""
    { color := (tableLookup PRESET_COLORS (strToLower prstClr)).getD "000000", clrNode }
  else if jsTruthyOpt (solidFill.get "a:hslClr") then
    let clrNode := solidFill.get "a:hslClr"
    let attrs := jsOrObj (Xml.getOpt clrNode "attrs")
    let hue := (parseFloatTS (jsOrString (attrs.get "hue") "0")).map (· / 100000)
    let sat := (parseFloatTS (replaceFirst (jsOrString (attrs.get "sat") "0") "%" "")).map (· / 100)
    let lum := (parseFloatTS (replaceFirst (jsOrString (attrs.get "lum") "0") "%" "")).map (· / 100)
    let color :=
      match hue, sat, lum with
      | some h, some s, some l =>
        let rgb := hslToRgbCR h s l
        toHexJS (some (rgb.1 : ℚ)) ++ toHexJS (some (rgb.2.1 : ℚ)) ++ toHexJS (some (rgb.2.2 : ℚ))
      | _, _, _ => toHexJS none ++ toHexJS none ++ toHexJS none
    { color, clrNode }
  else if jsTruthyOpt (solidFill.get "a:sysClr") then
    let clrNode := solidFill.get "a:sysClr"
    { color := jsOrString (getTextByPathList clrNode ["attrs", "lastClr"]) "", clrNode }
  else
    { color := "", clrNode := none }

/-- Looking up a key in an object yields a structurally smaller value. -/
theorem lookupField_sizeOf {fields : List (String × Xml)} {key : String} {v : Xml}
    (h : lookupField fields key = some v) : sizeOf v < sizeOf fields := by
  induction fields with
  | nil => simp [lookupField] at h
  | cons p rest ih =>
    obtain ⟨k, x⟩ := p
    by_cases hk : k = key
    · simp [lookupField, hk] at h
      subst h
      simp
      omega
    · simp [lookupField, hk] at h
      have := ih h
      simp
      omega

/-- Child access yields a structurally smaller value. -/
theorem Xml.get_sizeOf {x : Xml} {key : String} {v : Xml}
    (h : x.get key = some v) : sizeOf v < sizeOf x := by
  cases x with
  | text s => simp [Xml.get] at h
  | arr items => simp [Xml.get] at h
  | obj fields =>
    simp only [Xml.get] at h
    have := lookupField_sizeOf h
    simp
    omega

/-- A truthy child is structurally smaller than its parent. -/
theorem sizeOf_get_lt_of_truthy {sf : Xml} {key : String}
    (h : jsTruthyOpt (sf.get key) = true) :
    sizeOf (sf.get key) < sizeOf (some sf) := by
  cases hg : sf.get key with
  | none => rw [hg] at h; simp [jsTruthyOpt] at h
  | some y =>
    have := Xml.get_sizeOf hg
    simp only [Option.some.sizeOf_spec]
    omega

/-- `resolveSolidFill` (color-resolver.ts): parse the base color, recurse
into `a:fillRef` when no direct color source is present, apply the color
modifiers with alpha merged into the hex value, and `#`-prefix the result. -/
def resolveSolidFill (solidFill : Option Xml) (context : ParsingContext)
    (clrMap : Option Xml) (phClr : Option String) : String :=
  match solidFill with
  | none => ""
  | some sf =>
    let pr := parseBaseColor sf context clrMap phClr
    if h : pr.color = "" ∧ jsTruthyOpt (sf.get "a:fillRef") = true then
      resolveSolidFill (sf.get "a:fillRef") context clrMap phClr
    else
      let resultColor :=
        match pr.clrNode with
        | some n => if jsTruthy n ∧ pr.color ≠ "" then (applyColorModifiers pr.color n true).color
                    else pr.color
        | none => pr.color
      if resultColor ≠ "" ∧ ¬ strStartsWith resultColor "#" then "#" ++ resultColor else resultColor
termination_by sizeOf solidFill
decreasing_by exact sizeOf_get_lt_of_truthy h.2

/-- `resolveColor` (color-resolver.ts): the generic entry point, delegating
to `resolveSolidFill`. -/
def resolveColor (node : Option Xml) (context : ParsingContext) : String :=
  match node with
  | none => ""
  | some _ => resolveSolidFill node context none none

/-- `resolveSolidFillWithAlpha` (color-resolver.ts): like
`resolveSolidFill` but the alpha modifier is returned as a separate numeric
field instead of being merged into the hex value. -/
def resolveSolidFillWithAlpha (solidFill : Option Xml) (context : ParsingContext)
    (clrMap : Option Xml) (phClr : Option String) : ColorAlpha :=
  match solidFill with
  | none => { color := "", alpha := none }
  | some sf =>
    let pr := parseBaseColor sf context clrMap phClr
    if h : pr.color = "" ∧ jsTruthyOpt (sf.get "a:fillRef") = true then
      resolveSolidFillWithAlpha (sf.get "a:fillRef") context clrMap phClr
    else
      let step : String × Option ℚ :=
        match pr.clrNode with
        | some n =>
          if jsTruthy n ∧ pr.color ≠ "" then
            let result := applyColorModifiers pr.color n false
            (result.color, result.alpha)
          else (pr.color, none)
        | none => (pr.color, none)
      let resultColor :=
        if step.1 ≠ "" ∧ ¬ strStartsWith step.1 "#" then "#" ++ step.1 else step.1
      { color := resultColor, alpha := step.2 }
termination_by sizeOf solidFill
decreasing_by exact sizeOf_get_lt_of_truthy h.2

/-! ## Intermediate element representation (types/pptx.ts) -/

/-- `PPTXTransform`: EMU position/size (`none` = `NaN`), rotation in
degrees (`undefined` and `NaN` both collapse to `none`; no downstream code
distinguishes them). -/
structure PPTXTransform where
  x : Option Int
  y : Option Int
  width : Option Int
  height : Option Int
  rotation : Option ℚ
deriving Repr, DecidableEq

/-- `PPTXTextRun`. -/
structure PPTXTextRun where
  text : String
  bold : Bool
  italic : Bool
  underline : Bool
  strike : Bool
  fontSize : Option ℚ
  fontName : Option String
  color : Option String
deriving Repr, DecidableEq

/-- `PPTXParagraph` (alignment stored as the target enum string). -/
structure PPTXParagraph where
  runs : List PPTXTextRun
  align : Option String
  bullet : Bool
  level : Option Int
deriving Repr, DecidableEq

/-- Shape outline style. -/
structure PPTXOutline where
  color : Option String
  width : Option ℚ
  style : String
deriving Repr, DecidableEq

/-- A table cell (chart/table payloads per spec §4.4). -/
structure PPTXTableCell where
  text : String
  rowSpan : Int
  colSpan : Int
  fill : Option String
deriving Repr, DecidableEq

/-- A table row. -/
structure PPTXTableRow where
  cells : List PPTXTableCell
deriving Repr, DecidableEq

/-- `PPTXElement`: the tagged union of parsed slide elements. -/
inductive PPTXElement where
  | text (id : String) (transform : PPTXTransform) (name : Option String)
      (paragraphs : List PPTXParagraph)
  | shape (id : String) (transform : PPTXTransform) (name : Option String)
      (shapeType : String) (adj : Option Int) (fill : Option String)
      (fillOpacity : Option ℚ) (outline : Option PPTXOutline) (path : String)
  | image (id : String) (transform : PPTXTransform) (name : Option String) (rId : String)
  | video (id : String) (transform : PPTXTransform) (name : Option String) (rId : String)
  | audio (id : String) (transform : PPTXTransform) (name : Option String) (rId : String)
  | line (id : String) (transform : PPTXTransform) (name : Option String)
      (startX startY endX endY : Option Int) (color : Option String) (width : Option ℚ)
  | chart (id : String) (transform : PPTXTransform) (name : Option String)
      (chartType : String) (rId : String)
  | table (id : String) (transform : PPTXTransform) (name : Option String)
      (rows : List PPTXTableRow)
deriving Repr, DecidableEq

/-- `uuidv4()` (external, nondeterministic) modelled as a fixed placeholder;
no claim inspects generated ids. -/
def uuidV4Placeholder : String := "00000000-0000-4000-8000-000000000000"

/-- `NaN`-propagating addition of JS numbers. -/
def optAdd : Option Int → Option Int → Option Int
  | some a, some b => some (a + b)
  | _, _ => none

/-! ## Element parsers (modules/conversion/services/parser/elements) -/

/-- `parseTransform` (elements/shape.ts). -/
def parseTransform (spPr : Option Xml) : PPTXTransform :=
  let xfrm := Xml.getOpt spPr "a:xfrm"
  let off := jsOrObj (Xml.getOpt (Xml.getOpt xfrm "a:off") "attrs")
  let ext := jsOrObj (Xml.getOpt (Xml.getOpt xfrm "a:ext") "attrs")
  let rot := Xml.getOpt (Xml.getOpt xfrm "attrs") "rot"
  { x := parseIntTS (jsOrString (off.get "x") "0")
    y := parseIntTS (jsOrString (off.get "y") "0")
    width := parseIntTS (jsOrString (ext.get "cx") "0")
    height := parseIntTS (jsOrString (ext.get "cy") "0")
    rotation :=
      match rot with
      | some r => if jsTruthy r then (parseIntTS (jsString r)).map (fun v => (v : ℚ) / 60000) else none
      | none => none }

/-- The list-level block of `resolveTextColor` (step 3 of the chain): if
the paragraph properties carry a `lvl` attribute, look for
`a:lvl${level}pPr`/`a:defRPr`/`a:solidFill` on them. -/
def resolveTextColorLvlBlock (pPr : Option Xml) (context : ParsingContext) : Option String :=
  match pPr with
  | some pPrNode =>
    if jsTruthy pPrNode then
      match Xml.getOpt (pPrNode.get "attrs") "lvl" with
      | some levelAttr =>
        let levelStr :=
          match parseIntTS (jsString levelAttr) with
          | some i => toString i
          | none => "NaN"
        let lvlPPr := pPrNode.get ("a:lvl" ++ levelStr ++ "pPr")
        let lvlDefRPrSolidFill := Xml.getOpt (Xml.getOpt lvlPPr "a:defRPr") "a:solidFill"
        if jsTruthyOpt lvlDefRPrSolidFill then
          some (resolveSolidFill lvlDefRPrSolidFill context none none)
        else none
      | none => none
    else none
  | none => none

/-- `resolveTextColor` (elements/shape.ts): the 4-level inheritance chain —
run-level explicit fill, paragraph default run properties, list-level
default run properties keyed by the paragraph's `lvl` attribute, then the
text body's list-style default run properties; `undefined` when none is
populated. -/
def resolveTextColor (run paragraph txBody : Xml) (context : ParsingContext) : Option String :=
  let runSolidFill := Xml.getOpt (run.get "a:rPr") "a:solidFill"
  if jsTruthyOpt runSolidFill then some (resolveSolidFill runSolidFill context none none)
  else
    let pPr := paragraph.get "a:pPr"
    let defRPrSolidFill := Xml.getOpt (Xml.getOpt pPr "a:defRPr") "a:solidFill"
    if jsTruthyOpt defRPrSolidFill then some (resolveSolidFill defRPrSolidFill context none none)
    else
      match resolveTextColorLvlBlock pPr context with
      | some c => some c
      | none =>
        let lstStyleDefRPrSolidFill :=
          getTextByPathList (txBody.get "a:lstStyle") ["a:defRPr", "a:solidFill"]
        if jsTruthyOpt lstStyleDefRPrSolidFill then
          some (resolveSolidFill lstStyleDefRPrSolidFill context none none)
        else none

/-- `parseTextBodyToParagraphs` (elements/shape.ts). -/
def parseTextBodyToParagraphs (txBody : Option Xml) (context : ParsingContext) :
    List PPTXParagraph :=
  match txBody with
  | none => []
  | some txb =>
    if ¬ jsTruthy txb then []
    else
      (jsToArray (txb.get "a:p")).map fun p =>
        let runs := (jsToArray (p.get "a:r")).map fun run =>
          let rPr := jsOrObj (Xml.getOpt (run.get "a:rPr") "attrs")
          let text := jsOrString (run.get "a:t") ""
          let color := resolveTextColor run p txb context
          { text
            bold := strEq (rPr.get "b") "1"
            italic := strEq (rPr.get "i") "1"
            underline := strEq (rPr.get "u") "sng" || strEq (rPr.get "u") "1"
            strike := strEq (rPr.get "strike") "sngStrike"
            fontSize :=
              match rPr.get "sz" with
              | some v => if jsTruthy v then (parseIntTS (jsString v)).map (fun i => (i : ℚ) / 100)
                          else none
              | none => none
            fontName := (rPr.get "latin").map jsString
            color : PPTXTextRun }
        let pPrAttrs := Xml.getOpt (p.get "a:pPr") "attrs"
        let algn := Xml.getOpt pPrAttrs "algn"
        let align : Option String :=
          if strEq algn "l" then some "left"
          else if strEq algn "r" then some "right"
          else if strEq algn "ctr" then some "center"
          else if strEq algn "just" ∨ strEq algn "dist" then some "justify"
          else none
        let bullet := jsTruthyOpt (Xml.getOpt (p.get "a:pPr") "a:buFont")
          || jsTruthyOpt (Xml.getOpt (p.get "a:pPr") "a:buChar")
          || jsTruthyOpt (Xml.getOpt (p.get "a:pPr") "a:buAutoNum")
        let level : Option Int :=
          match Xml.getOpt pPrAttrs "lvl" with
          | some v => if jsTruthy v then parseIntTS (jsString v) else none
          | none => none
        { runs, align, bullet, level }

/-- Modelled from the spec: generators/svg-path-generator.ts
(`generateShapePath`) is not included under src/. Per spec §4.5 the
generator is pure, supports at least rectangle, rounded rectangle (corner
radius driven by the adjustment value and clamped to `min(width,height)/2`)
and ellipse, and unknown preset names fall back to the plain rectangle
path; `NaN` dimensions are rendered as 0 here. No claim inspects the
produced path string. -/
def generateShapePath (presetName : String) (w h : Option ℚ) (adj : Option Int) : String :=
  let wq := w.getD 0
  let hq := h.getD 0
  let num (q : ℚ) : String :=
    toString q.num ++ (if q.den = 1 then "" else "/" ++ toString q.den)
  if presetName = "ellipse" then
    "E " ++ num (wq / 2) ++ " " ++ num (hq / 2)
  else if presetName = "roundRect" then
    let r := min (((adj.getD 50000 : Int) : ℚ) / 100000 * min wq hq) (min wq hq / 2)
    "RR " ++ num wq ++ " " ++ num hq ++ " " ++ num r
  else
    "M 0 0 L " ++ num wq ++ " 0 L " ++ num wq ++ " " ++ num hq ++ " L 0 " ++ num hq ++ " Z"

/-- `RATIO_EMUs_Points = 1 / 12700`. -/
def RATIO_EMUs_Points : ℚ := 1 / 12700

/-- The paragraphs `parseShape` extracts from the shape's text body
(`if (txBody) { paragraphs = parseTextBodyToParagraphs(txBody, context) }`). -/
def parseShapeParagraphs (shape : Xml) (context : ParsingContext) : List PPTXParagraph :=
  let txBody := shape.get "p:txBody"
  if jsTruthyOpt txBody then parseTextBodyToParagraphs txBody context else []

/-- `parseShape`'s text detection:
`paragraphs.some(p => p.runs.some(run => run.text && run.text.trim().length > 0))`. -/
def shapeHasActualText (paragraphs : List PPTXParagraph) : Bool :=
  paragraphs.any fun p => p.runs.any fun run => run.text ≠ "" ∧ (trimTS run.text).length > 0

/-- `parseShape` (elements/shape.ts): a shape whose text body contains a
run with non-whitespace text becomes a `text` element; otherwise a `shape`
element with preset geometry, adjustment value, fill (with separate
opacity), outline and generated path. -/
def parseShape (shape : Xml) (context : ParsingContext) : Option PPTXElement :=
  let nvSpPr := shape.get "p:nvSpPr"
  let spPr := shape.get "p:spPr"
  let transform := parseTransform spPr
  let cNvPr := Xml.getOpt (Xml.getOpt nvSpPr "p:cNvPr") "attrs"
  let id := jsOrString (Xml.getOpt cNvPr "id") uuidV4Placeholder
  let name := (Xml.getOpt cNvPr "name").map jsString
  let paragraphs := parseShapeParagraphs shape context
  if shapeHasActualText paragraphs then some (.text id transform name paragraphs)
  else
    let shapeType := jsOrString (getTextByPathList spPr ["a:prstGeom", "attrs", "prst"]) "rect"
    let gdArray := jsToArray (Xml.getOpt (getTextByPathList spPr ["a:prstGeom", "a:avLst"]) "a:gd")
    let adj : Option Int :=
      match gdArray.find? (fun gd => strEq (getTextByPathList (some gd) ["attrs", "name"]) "adj") with
      | some gd =>
        match getTextByPathList (some gd) ["attrs", "fmla"] with
        | some (.text fmla) => if strStartsWith fmla "val " then parseIntTS (strDrop fmla 4) else none
        | _ => none
      | none => none
    let solidFill := Xml.getOpt spPr "a:solidFill"
    let fillPair : Option String × Option ℚ :=
      if jsTruthyOpt solidFill then
        let fillResult := resolveSolidFillWithAlpha solidFill context none none
        (some fillResult.color, fillResult.alpha)
      else (none, none)
    let ln := Xml.getOpt spPr "a:ln"
    let outline : Option PPTXOutline :=
      if jsTruthyOpt ln then
        let lnAttrs := jsOrObj (Xml.getOpt ln "attrs")
        let lnSolidFill := Xml.getOpt ln "a:solidFill"
        let dashVal := getTextByPathList ln ["a:prstDash", "attrs", "val"]
        some
          { color := if jsTruthyOpt lnSolidFill then
                some (resolveSolidFill lnSolidFill context none none)
              else none
            width :=
              match lnAttrs.get "w" with
              | some v => if jsTruthy v then
                    (parseIntTS (jsString v)).map (fun i => (i : ℚ) * RATIO_EMUs_Points)
                  else none
              | none => none
            style := if strEq dashVal "solid" then "solid"
              else if jsTruthyOpt dashVal then "dashed" else "solid" }
      else none
    some (.shape id transform name shapeType adj fillPair.1 fillPair.2 outline
      (generateShapePath shapeType (transform.width.map (fun v => (v : ℚ) * RATIO_EMUs_Points))
        (transform.height.map (fun v => (v : ℚ) * RATIO_EMUs_Points)) adj))

/-- `parsePicture` (elements/picture.ts): requires an `a:blip` `r:embed`
relationship id (otherwise `null`), then classifies as video / audio /
image, in that order. -/
def parsePicture (pic : Xml) (_context : ParsingContext) : Option PPTXElement :=
  let nvPicPr := pic.get "p:nvPicPr"
  let spPr := pic.get "p:spPr"
  let blipFill := pic.get "p:blipFill"
  let transform := parseTransform spPr
  let cNvPr := Xml.getOpt (Xml.getOpt nvPicPr "p:cNvPr") "attrs"
  let id := jsOrString (Xml.getOpt cNvPr "id") uuidV4Placeholder
  let name := (Xml.getOpt cNvPr "name").map jsString
  let rIdOpt := getTextByPathList blipFill ["a:blip", "attrs", "r:embed"]
  if ¬ jsTruthyOpt rIdOpt then none
  else
    let nvPr := Xml.getOpt nvPicPr "p:nvPr"
    let videoFile := getTextByPathList nvPr ["a:videoFile", "attrs", "r:link"]
    let audioFile := getTextByPathList nvPr ["a:audioFile", "attrs", "r:link"]
    if jsTruthyOpt videoFile then some (.video id transform name (jsOrString videoFile ""))
    else if jsTruthyOpt audioFile then some (.audio id transform name (jsOrString audioFile ""))
    else some (.image id transform name (jsOrString rIdOpt ""))

/-- `parseConnector` (elements/connector.ts). -/
def parseConnector (conn : Xml) (context : ParsingContext) : Option PPTXElement :=
  let nvCxnSpPr := conn.get "p:nvCxnSpPr"
  let spPr := conn.get "p:spPr"
  let transform := parseTransform spPr
  let cNvPr := Xml.getOpt (Xml.getOpt nvCxnSpPr "p:cNvPr") "attrs"
  let id := jsOrString (Xml.getOpt cNvPr "id") uuidV4Placeholder
  let name := (Xml.getOpt cNvPr "name").map jsString
  let ln := Xml.getOpt spPr "a:ln"
  let solidFill := Xml.getOpt ln "a:solidFill"
  let color := if jsTruthyOpt solidFill then some (resolveSolidFill solidFill context none none)
    else none
  let wAttr := Xml.getOpt (Xml.getOpt ln "attrs") "w"
  let width : Option ℚ :=
    match wAttr with
    | some v => if jsTruthy v then (parseIntTS (jsString v)).map (fun i => (i : ℚ) * RATIO_EMUs_Points)
                else none
    | none => none
  some (.line id transform name transform.x transform.y
    (optAdd transform.x transform.width) (optAdd transform.y transform.height) color width)

/-- Modelled from the spec: parsers/chart-parser.ts (`parseChart`) is not
included under src/. Per spec §4.4 the chart sub-parser extracts a
chart-type placeholder and the relationship id; full chart data extraction
is an explicit non-goal. -/
def parseChart (frame : Xml) (chartRId : String) (transform : PPTXTransform)
    (_context : ParsingContext) : Option PPTXElement :=
  let cNvPr := getTextByPathList (frame.get "p:nvGraphicFramePr") ["p:cNvPr", "attrs"]
  let id := jsOrString (Xml.getOpt cNvPr "id") uuidV4Placeholder
  let name := (Xml.getOpt cNvPr "name").map jsString
  some (.chart id transform name "column" chartRId)

/-- Text of one table cell's text body (concatenated run texts). -/
def extractCellText (txBody : Option Xml) : String :=
  String.join ((jsToArray (Xml.getOpt txBody "a:p")).map fun p =>
    String.join ((jsToArray (p.get "a:r")).map fun r => jsOrString (r.get "a:t") ""))

/-- Modelled from the spec: parsers/table-parser.ts (`parseTable`) is not
included under src/. Per spec §4.4 the table sub-parser extracts the
row/cell grid with cell text, row/column spans and per-cell fill. -/
def parseTable (frame : Xml) (transform : PPTXTransform)
    (context : ParsingContext) : Option PPTXElement :=
  let tbl := getTextByPathList (some frame) ["a:graphic", "a:graphicData", "a:tbl"]
  let rows := (jsToArray (Xml.getOpt tbl "a:tr")).map fun tr =>
    { cells := (jsToArray (tr.get "a:tc")).map fun tc =>
        let tcPr := tc.get "a:tcPr"
        { text := extractCellText (tc.get "a:txBody")
          rowSpan := ((Xml.getOpt (Xml.getOpt tcPr "attrs") "rowSpan").bind
            (fun v => parseIntTS (jsString v))).getD 1
          colSpan := ((Xml.getOpt (Xml.getOpt tcPr "attrs") "gridSpan").bind
            (fun v => parseIntTS (jsString v))).getD 1
          fill := if jsTruthyOpt (Xml.getOpt tcPr "a:solidFill") then
              some (resolveSolidFill (Xml.getOpt tcPr "a:solidFill") context none none)
            else none : PPTXTableCell } : PPTXTableRow }
  let cNvPr := getTextByPathList (frame.get "p:nvGraphicFramePr") ["p:cNvPr", "attrs"]
  let id := jsOrString (Xml.getOpt cNvPr "id") uuidV4Placeholder
  let name := (Xml.getOpt cNvPr "name").map jsString
  some (.table id transform name rows)

/-- `parseGraphicFrame` (parser/index.ts, part of the parser module):
dispatches on the `uri` of `a:graphicData` — "chart" delegates to the chart
sub-parser (or a placeholder chart element when the relationship id is
missing), "table" to the table sub-parser, anything else is unsupported. -/
def parseGraphicFrame (frame : Xml) (context : ParsingContext) : Option PPTXElement :=
  let nvGraphicFramePr := frame.get "p:nvGraphicFramePr"
  let xfrm := frame.get "p:xfrm"
  let graphic := frame.get "a:graphic"
  let off := jsOrObj (Xml.getOpt (Xml.getOpt xfrm "a:off") "attrs")
  let ext := jsOrObj (Xml.getOpt (Xml.getOpt xfrm "a:ext") "attrs")
  let transform : PPTXTransform :=
    { x := parseIntTS (jsOrString (off.get "x") "0")
      y := parseIntTS (jsOrString (off.get "y") "0")
      width := parseIntTS (jsOrString (ext.get "cx") "0")
      height := parseIntTS (jsOrString (ext.get "cy") "0")
      rotation := none }
  let cNvPr := Xml.getOpt (Xml.getOpt nvGraphicFramePr "p:cNvPr") "attrs"
  let id := jsOrString (Xml.getOpt cNvPr "id") uuidV4Placeholder
  let name := (Xml.getOpt cNvPr "name").map jsString
  let graphicData := Xml.getOpt graphic "a:graphicData"
  let uriOpt := Xml.getOpt (Xml.getOpt graphicData "attrs") "uri"
  let uriHas (sub : String) : Bool :=
    match uriOpt with
    | some u => containsSubstr (jsString u) sub
    | none => false
  if uriHas "chart" then
    let chartRId := getTextByPathList graphicData ["c:chart", "attrs", "r:id"]
    if jsTruthyOpt chartRId then parseChart frame (jsOrString chartRId "") transform context
    else some (.chart id transform name "column" "")
  else if uriHas "table" then
    parseTable frame transform context
  else none

/-! ## Zip archive model and XML part reading (parser/utils.ts, JSZip) -/

/-- One zip entry: an XML part stores its normalized tree (a
present-but-empty part is modelled as an absent part), a binary part its
bytes. -/
inductive ZipEntry where
  | xml (content : Xml)
  | bin (data : List Nat)
deriving Repr

/-- The zip archive: named entries in archive order. -/
abbrev Zip := List (String × ZipEntry)

/-- Generic association-list lookup (JS objects / `Map.get`). -/
def assocGet {α : Type} : List (String × α) → String → Option α
  | [], _ => none
  | (k, v) :: rest, key => if k = key then some v else assocGet rest key

/-- JS `Map.set` / object index assignment: update in place, else append. -/
def recordSet {α : Type} : List (String × α) → String → α → List (String × α)
  | [], k, v => [(k, v)]
  | (k', v') :: rest, k, v => if k' = k then (k, v) :: rest else (k', v') :: recordSet rest k v

/-- `zip.file(path)`. -/
def zipFile (zip : Zip) (path : String) : Option ZipEntry :=
  assocGet zip path

/-- `readXmlFile` (parser/utils.ts): read and normalize one XML part;
missing (or empty) content yields `{}`. -/
def readXmlFile (zip : Zip) (path : String) : Xml :=
  match zipFile zip path with
  | some (.xml x) => x
  | _ => .obj []

mutual
/-- The `fast-xml-parser` configuration *without* `attributesGroupName`
(used by `parseSlideRels`), related to the canonical grouped form by
splicing every `attrs` object into its parent. -/
def ungroupAttrs : Xml → Xml
  | .text s => .text s
  | .arr items => .arr (ungroupAttrsList items)
  | .obj fields => .obj (ungroupAttrsFields fields)

/-- `ungroupAttrs` over a node list. -/
def ungroupAttrsList : List Xml → List Xml
  | [] => []
  | x :: rest => ungroupAttrs x :: ungroupAttrsList rest

/-- `ungroupAttrs` over an object's fields. -/
def ungroupAttrsFields : List (String × Xml) → List (String × Xml)
  | [] => []
  | (k, v) :: rest =>
    if k = "attrs" then
      (match v with
       | .obj attrs => attrs
       | other => [(k, other)]) ++ ungroupAttrsFields rest
    else (k, ungroupAttrs v) :: ungroupAttrsFields rest
end

/-- MIME table of `getMimeType` (parser/utils.ts). -/
def mimeTypes : List (String × String) :=
  [("png", "image/png"), ("jpg", "image/jpeg"), ("jpeg", "image/jpeg"),
   ("gif", "image/gif"), ("bmp", "image/bmp"), ("mp4", "video/mp4"),
   ("avi", "video/x-msvideo"), ("mov", "video/quicktime"),
   ("mp3", "audio/mpeg"), ("wav", "audio/wav")]

/-- `getMimeType` (parser/utils.ts). -/
def getMimeType (path : String) : String :=
  let ext := strToLower ((splitOnCharTS path '.').getLastD "")
  (tableLookup mimeTypes ext).getD "application/octet-stream"

/-! ## Content types, slide info, theme, relationships (parser modules) -/

/-- First match of the regex `/(\d+)\.xml/`: the leftmost digit run
immediately followed by `.xml` (a shorter prefix of a digit run is never
followed by `.`, so greedy backtracking cannot shorten the capture). -/
def regexNumXml (s : String) : Option String :=
  let rec go : List Char → Option String
    | [] => none
    | c :: rest =>
      if c.isDigit then
        let ds := leadingDigits (c :: rest)
        if ".xml".data.isPrefixOf ((c :: rest).drop ds.length) then
          some (String.mk ds)
        else go rest
      else go rest
  go s.data

/-- The numeric sort key of `sortByNumber`. -/
def xmlNumKey (s : String) : Int :=
  (parseIntTS ((regexNumXml s).getD "0")).getD 0

/-- Stable insertion of one element into a list sorted by `xmlNumKey`. -/
def insertByNum (x : String) : List String → List String
  | [] => [x]
  | y :: rest => if xmlNumKey y ≤ xmlNumKey x then y :: insertByNum x rest
                 else x :: y :: rest

/-- `sortByNumber` (parser/content-types.ts): stable numeric sort on the
`/(\d+)\.xml/` capture. -/
def sortByNumber (arr : List String) : List String :=
  arr.foldl (fun acc x => insertByNum x acc) []

/-- `ContentTypesResult`. -/
structure ContentTypesResult where
  slides : List String
  slideLayouts : List String
deriving Repr, DecidableEq

/-- `getContentTypes` (parser/content-types.ts): collect slide / layout
part names (leading `/` stripped) from `[Content_Types].xml` overrides,
numerically sorted. -/
def getContentTypes (zip : Zip) : ContentTypesResult :=
  let contentTypesJson := readXmlFile zip "[Content_Types].xml"
  let overrides := jsToArray (Xml.getOpt (contentTypesJson.get "Types") "Override")
  let collected := overrides.foldl (fun (acc : List String × List String) item =>
    let contentType := getTextByPathList (some item) ["attrs", "ContentType"]
    let partName := getTextByPathList (some item) ["attrs", "PartName"]
    if ¬ (jsTruthyOpt contentType ∧ jsTruthyOpt partName) then acc
    else if strEq contentType "application/vnd.openxmlformats-officedocument.presentationml.slide+xml" then
      (acc.1 ++ [strDrop (jsOrString partName "") 1], acc.2)
    else if strEq contentType "application/vnd.openxmlformats-officedocument.presentationml.slideLayout+xml" then
      (acc.1, acc.2 ++ [strDrop (jsOrString partName "") 1])
    else acc) ([], [])
  { slides := sortByNumber collected.1, slideLayouts := sortByNumber collected.2 }

/-- `SlideInfoResult`. -/
structure SlideInfoResult where
  width : Option Int
  height : Option Int
  defaultTextStyle : Xml

/-- `getSlideInfo` (parser/slide-info.ts): slide size in EMU (with the
9144000 × 6858000 default) and the default text style. -/
def getSlideInfo (zip : Zip) : SlideInfoResult :=
  let content := readXmlFile zip "ppt/presentation.xml"
  let sldSzAttrs := jsOrObj (getTextByPathList (some content) ["p:presentation", "p:sldSz", "attrs"])
  let defaultTextStyle := jsOrObj (getTextByPathList (some content) ["p:presentation", "p:defaultTextStyle"])
  { width := parseIntTS (jsOrString (sldSzAttrs.get "cx") "9144000")
    height := parseIntTS (jsOrString (sldSzAttrs.get "cy") "6858000")
    defaultTextStyle }

/-- `ThemeResult`. -/
structure ThemeResult where
  themeContent : Xml
  themeColors : List String

/-- `getTheme` (parser/theme.ts): locate the theme part through the
presentation relationships, read it, and extract the six accent colors. -/
def getTheme (zip : Zip) : ThemeResult :=
  let preResContent := readXmlFile zip "ppt/_rels/presentation.xml.rels"
  let relationships := jsToArray (Xml.getOpt (preResContent.get "Relationships") "Relationship")
  let themeRel := relationships.find? fun rel =>
    strEq (getTextByPathList (some rel) ["attrs", "Type"])
      "http://schemas.openxmlformats.org/officeDocument/2006/relationships/theme"
  let themeURI :=
    match themeRel with
    | some rel => getTextByPathList (some rel) ["attrs", "Target"]
    | none => none
  if ¬ jsTruthyOpt themeURI then { themeContent := .obj [], themeColors := [] }
  else
    let themePath := "ppt/" ++ jsOrString themeURI ""
    let themeContent := readXmlFile zip themePath
    let clrScheme := getTextByPathList (some themeContent) ["a:theme", "a:themeElements", "a:clrScheme"]
    let themeColors :=
      if jsTruthyOpt clrScheme then
        ([1, 2, 3, 4, 5, 6] : List Nat).foldl (fun acc i =>
          match getTextByPathList clrScheme ["a:accent" ++ toString i, "a:srgbClr", "attrs", "val"] with
          | some (.text c) =>
            if c ≠ "" then acc ++ [if strStartsWith c "#" then c else "#" ++ c] else acc
          | _ => acc) []
      else []
    { themeContent, themeColors }

/-- `RelationshipsResult`. -/
structure RelationshipsResult where
  resources : ResourceMap
  layoutFilename : Option String
  masterFilename : Option String
  themeFilename : Option String
  noteFilename : Option String

/-- `parseRelationships` (parser/index.ts): build the id → {type, target}
map (`../` targets re-rooted at `ppt/`), surfacing the special
layout/master/theme/notes targets as named fields. -/
def parseRelationships (zip : Zip) (relsPath : String) : RelationshipsResult :=
  let relsContent := readXmlFile zip relsPath
  let relationships := jsToArray (Xml.getOpt (relsContent.get "Relationships") "Relationship")
  relationships.foldl (fun acc rel =>
    let id := getTextByPathList (some rel) ["attrs", "Id"]
    let type := getTextByPathList (some rel) ["attrs", "Type"]
    let target := getTextByPathList (some rel) ["attrs", "Target"]
    if ¬ (jsTruthyOpt id ∧ jsTruthyOpt type ∧ jsTruthyOpt target) then acc
    else
      let typeName := replaceFirst (jsOrString type "")
        "http://schemas.openxmlformats.org/officeDocument/2006/relationships/" ""
      let normalizedTarget := replaceFirst (jsOrString target "") "../" "ppt/"
      let newResources := recordSet acc.resources (jsOrString id "") ⟨typeName, normalizedTarget⟩
      let acc := { acc with resources := newResources }
      if typeName = "slideLayout" then { acc with layoutFilename := some normalizedTarget }
      else if typeName = "slideMaster" then { acc with masterFilename := some normalizedTarget }
      else if typeName = "theme" then { acc with themeFilename := some normalizedTarget }
      else if typeName = "notesSlide" then { acc with noteFilename := some normalizedTarget }
      else acc)
    { resources := [], layoutFilename := none, masterFilename := none
      themeFilename := none, noteFilename := none }

/-- `parseSlideRels` (parser/index.ts): the per-slide rId → media-target
map; this function parses the rels part without attribute grouping, hence
the `ungroupAttrs` view; targets are filtered to `media/` and their leading
`../` stripped. -/
def parseSlideRels (zip : Zip) (slideNum : Nat) : List (String × String) :=
  let relsPath := "ppt/slides/_rels/slide" ++ toString slideNum ++ ".xml.rels"
  match zipFile zip relsPath with
  | some (.xml x) =>
    let rels := ungroupAttrs x
    let relationships := jsToArray (Xml.getOpt (rels.get "Relationships") "Relationship")
    relationships.foldl (fun acc rel =>
      let id := rel.get "Id"
      let target := rel.get "Target"
      if jsTruthyOpt id ∧ jsTruthyOpt target ∧ containsSubstr (jsOrString target "") "media/" then
        let t := jsOrString target ""
        let normalizedTarget := if strStartsWith t "../" then strDrop t 3 else t
        recordSet acc (jsOrString id "") normalizedTarget
      else acc) []
  | _ => []

/-! ## Slide context, slide parsing, presentation parsing (parser/index.ts) -/

/-- `Object.keys` (string/array index keys never pass the callers'
`p:`-prefix filters). -/
def keysOf : Xml → List String
  | .obj fields => fields.map Prod.fst
  | _ => []

/-- `Array.isArray(x) ? x : [x]` (no falsy fallback; callers only pass
present values). -/
def toArrayWrap (o : Option Xml) : List Xml :=
  match o with
  | some (.arr xs) => xs
  | some v => [v]
  | none => []

/-- First-truthy chain `a || b` over optional XML values. -/
def jsOrOpt (a b : Option Xml) : Option Xml :=
  if jsTruthyOpt a then a else b

/-- `indexNodes` (parser/index.ts): index the first root's shape tree by
element id, placeholder idx and placeholder type. -/
def indexNodes (content : Xml) : IndexTables :=
  let spTreeNode :=
    match content with
    | .obj ((_, v) :: _) => getTextByPathList (some v) ["p:cSld", "p:spTree"]
    | _ => none
  if ¬ jsTruthyOpt spTreeNode then createEmptyIndexTables
  else
    let spTreeX := spTreeNode.getD (.obj [])
    (keysOf spTreeX).foldl (fun tables key =>
      if key = "p:nvGrpSpPr" ∨ key = "p:grpSpPr" then tables
      else
        (toArrayWrap (spTreeX.get key)).foldl (fun tables node =>
          let nvSpPrNode := jsOrOpt (node.get "p:nvSpPr") (jsOrOpt (node.get "p:nvPicPr")
            (jsOrOpt (node.get "p:nvGraphicFramePr") (node.get "p:nvCxnSpPr")))
          let id := getTextByPathList nvSpPrNode ["p:cNvPr", "attrs", "id"]
          let idx := getTextByPathList nvSpPrNode ["p:nvPr", "p:ph", "attrs", "idx"]
          let type := getTextByPathList nvSpPrNode ["p:nvPr", "p:ph", "attrs", "type"]
          let tables := if jsTruthyOpt id then
              { tables with idTable := recordSet tables.idTable (jsOrString id "") node }
            else tables
          let tables := if jsTruthyOpt idx then
              { tables with idxTable := recordSet tables.idxTable (jsOrString idx "") node }
            else tables
          if jsTruthyOpt type then
            { tables with typeTable := recordSet tables.typeTable (jsOrString type "") node }
          else tables) tables)
      createEmptyIndexTables

/-- `buildSlideContext` (parser/index.ts): resolve the slide's
relationships, layout and master parts and assemble the per-slide
`ParsingContext`. -/
def buildSlideContext (zip : Zip) (slideFilename : String)
    (baseContext : ParsingContext) : ParsingContext :=
  let slideName :=
    let last := (splitOnCharTS slideFilename '/').getLastD ""
    let nm := replaceFirst last ".xml" ""
    if nm = "" then "slide1" else nm
  let relsPath := "ppt/slides/_rels/" ++ slideName ++ ".xml.rels"
  let r1 := parseRelationships zip relsPath
  if jsTruthyStr r1.layoutFilename then
    let layoutFilename := r1.layoutFilename.getD ""
    let slideLayoutContent := readXmlFile zip layoutFilename
    let slideLayoutTables := indexNodes slideLayoutContent
    let layoutRelsPath := replaceFirst layoutFilename "slideLayouts/slideLayout"
      "slideLayouts/_rels/slideLayout" ++ ".rels"
    let r2 := parseRelationships zip layoutRelsPath
    if jsTruthyStr r2.masterFilename then
      let masterFilename := r2.masterFilename.getD ""
      let slideMasterContent := readXmlFile zip masterFilename
      let slideMasterTables := indexNodes slideMasterContent
      let txStyles := getTextByPathList (some slideMasterContent) ["p:sldMaster", "p:txStyles"]
      let slideMasterTextStyles :=
        match txStyles with
        | some (.text _) => none
        | other => other
      let masterRelsPath := replaceFirst masterFilename "slideMasters/slideMaster"
        "slideMasters/_rels/slideMaster" ++ ".rels"
      let r3 := parseRelationships zip masterRelsPath
      let slideContent := readXmlFile zip slideFilename
      { baseContext with
          slideLayoutContent := some slideLayoutContent
          slideLayoutTables
          slideMasterContent := some slideMasterContent
          slideMasterTables
          slideMasterTextStyles
          slideResObj := r1.resources
          layoutResObj := r2.resources
          masterResObj := r3.resources
          slideContent := some slideContent }
    else
      let slideContent := readXmlFile zip slideFilename
      { baseContext with
          slideLayoutContent := some slideLayoutContent
          slideLayoutTables
          slideResObj := r1.resources
          layoutResObj := r2.resources
          slideContent := some slideContent }
  else
    let slideContent := readXmlFile zip slideFilename
    { baseContext with
        slideLayoutContent := some (.obj [])
        slideLayoutTables := createEmptyIndexTables
        slideResObj := r1.resources
        layoutResObj := []
        slideContent := some slideContent }

/-- `FillStyle` (resolvers/fill-resolver.ts). -/
inductive FillStyle where
  | solid (color : String)
  | gradient (gradientType : String) (colors : List (String × String)) (angle : Option ℚ)
  | image (src : String)
  | noFill
  | pattern
deriving Repr, DecidableEq

/-- Slide background in the `PPTXSlide` shape. -/
inductive PPTXBackground where
  | solid (color : String)
  | image (imageRId : String)
  | gradient (type : String) (colors : List (Option ℚ × String)) (angle : Option ℚ)
deriving Repr, DecidableEq

/-- Modelled from the spec: resolvers/fill-resolver.ts
(`resolveSlideBackgroundFill`) is not included under src/. Per the spec a
slide background's solid fill resolves through the color engine; modelled
minimally: an `a:solidFill` under the slide's `p:bg`/`p:bgPr` resolves via
`resolveSolidFill`, anything else is no fill. No claim depends on this. -/
def resolveSlideBackgroundFill (context : ParsingContext) : FillStyle :=
  let bgPr := getTextByPathList context.slideContent ["p:sld", "p:cSld", "p:bg", "p:bgPr"]
  let solidFill := Xml.getOpt bgPr "a:solidFill"
  if jsTruthyOpt solidFill then .solid (resolveSolidFill solidFill context none none)
  else .noFill

/-- `convertFillToBackground` (parser/index.ts). -/
def convertFillToBackground (fill : FillStyle) : Option PPTXBackground :=
  match fill with
  | .solid color => some (.solid color)
  | .image src => some (.image src)
  | .gradient gradientType colors angle =>
    some (.gradient (if gradientType = "linear" then "linear" else "radial")
      (colors.map fun c => ((parseIntTS c.1).map (fun v => (v : ℚ) / 100), c.2)) angle)
  | .noFill => none
  | .pattern => none

/-- `PPTXSlide`. -/
structure PPTXSlide where
  id : String
  elements : List PPTXElement
  background : Option PPTXBackground
deriving Repr, DecidableEq

/-- `parseSingleSlide` (parser/index.ts): build the slide context, then
walk the keys of the normalized `p:spTree` object (skipping the non-`p:`
and the two non-visual container keys) and, per key, parse every element
of that tag's list in order, appending the non-null results; finally
resolve the background. -/
def parseSingleSlide (zip : Zip) (slideFilename : String) (slideIndex : Nat)
    (baseContext : ParsingContext) : PPTXSlide :=
  let context0 := buildSlideContext zip slideFilename baseContext
  let context := { context0 with slideIndex := slideIndex }
  let spTree := getTextByPathList context.slideContent ["p:sld", "p:cSld", "p:spTree"]
  if ¬ jsTruthyOpt spTree then
    { id := "slide-" ++ toString slideIndex, elements := [], background := none }
  else
    let spTreeX := spTree.getD (.obj [])
    let elements := (keysOf spTreeX).foldl (fun acc key =>
      if ¬ strStartsWith key "p:" then acc
      else if key = "p:nvGrpSpPr" ∨ key = "p:grpSpPr" then acc
      else
        (toArrayWrap (spTreeX.get key)).foldl (fun acc2 item =>
          let element :=
            if key = "p:sp" then parseShape item context
            else if key = "p:pic" then parsePicture item context
            else if key = "p:graphicFrame" then parseGraphicFrame item context
            else if key = "p:cxnSp" then parseConnector item context
            else none
          match element with
          | some e => acc2 ++ [e]
          | none => acc2) acc) []
    let background := convertFillToBackground (resolveSlideBackgroundFill context)
    { id := "slide-" ++ toString slideIndex, elements, background }

/-- A media blob with its MIME type. -/
structure MediaInfo where
  data : List Nat
  contentType : String
deriving Repr, DecidableEq

/-- `PPTXPresentation`. -/
structure PPTXPresentation where
  slides : List PPTXSlide
  slideSize : Option Int × Option Int
  media : List (String × MediaInfo)
  slideMediaMaps : List (List (String × MediaInfo))
deriving Repr, DecidableEq

/-- Modelled from the spec: utils/errors.ts (`Errors`) is not included
under src/ (only its unit tests, in the error-handler test file): the
fatal conversion failures carried as typed errors. -/
inductive ConversionError where
  | protectedFile
  | corruptedFile
deriving Repr, DecidableEq

/-- The machine-readable code of each fatal error (pinned by the errors
unit tests: `Errors.protectedFile().code === 'ERR_PROTECTED_FILE'`). -/
def ConversionError.code : ConversionError → String
  | .protectedFile => "ERR_PROTECTED_FILE"
  | .corruptedFile => "ERR_CORRUPTED_FILE"

/-- `parsePPTX` (parser/index.ts): check for the `EncryptedPackage` entry
(password-protected file) and fail fast; check `ppt/presentation.xml`
exists; then read slide info, theme and content types, extract media, and
parse every slide, building one rId→media map per slide. -/
def parsePPTX (zip : Zip) : Except ConversionError PPTXPresentation :=
  if (zipFile zip "EncryptedPackage").isSome then .error .protectedFile
  else if (zipFile zip "ppt/presentation.xml").isNone then .error .corruptedFile
  else
    let info := getSlideInfo zip
    let theme := getTheme zip
    let ct := getContentTypes zip
    let baseContext :=
      { createDefaultParsingContext with
          themeContent := some theme.themeContent
          themeColors := theme.themeColors
          defaultTextStyle := some info.defaultTextStyle }
    let media := (zip.filter (fun e => strStartsWith e.1 "ppt/media/")).foldl (fun acc e =>
      let mediaId := replaceFirst e.1 "ppt/media/" ""
      let data := match e.2 with | .bin bs => bs | .xml _ => []
      recordSet acc mediaId { data, contentType := getMimeType e.1 }) []
    let slidesAndMaps := (List.range ct.slides.length).foldl
      (fun (acc : List PPTXSlide × List (List (String × MediaInfo))) i =>
        let slideFilename := ct.slides.getD i ""
        let slideNum := i + 1
        let slide := parseSingleSlide zip slideFilename slideNum baseContext
        let rIdToTarget := parseSlideRels zip slideNum
        let slideRIdToMedia := rIdToTarget.foldl (fun m pr =>
          let mediaId := replaceFirst pr.2 "media/" ""
          match assocGet media mediaId with
          | some mediaData => recordSet m pr.1 mediaData
          | none => m) []
        (acc.1 ++ [slide], acc.2 ++ [slideRIdToMedia])) ([], [])
    .ok { slides := slidesAndMaps.1, slideSize := (info.width, info.height), media
          slideMediaMaps := slidesAndMaps.2 }

/-! ## Media processing with composite keys (services/converter.ts) -/

/-- Decimal digit character. -/
def digitCharDec : Nat → Char
  | 0 => '0' | 1 => '1' | 2 => '2' | 3 => '3' | 4 => '4'
  | 5 => '5' | 6 => '6' | 7 => '7' | 8 => '8' | 9 => '9'
  | _ => '*'

/-- Fuel-structured little-endian decimal digits (the fuel always
suffices when it exceeds the number; structural so that it reduces in the
kernel). -/
def natDigitsLEAux : Nat → Nat → List Nat
  | 0, _ => []
  | fuel + 1, n => if n = 0 then [] else (n % 10) :: natDigitsLEAux fuel (n / 10)

/-- Little-endian decimal digits of a natural number. -/
def natDigitsLE (n : Nat) : List Nat :=
  natDigitsLEAux (n + 1) n

/-- JS decimal rendering of a natural number (the `${slideIndex}` template
interpolation). -/
def natDec (n : Nat) : String :=
  if n = 0 then "0" else String.mk ((natDigitsLE n).reverse.map digitCharDec)

/-- The composite media-map key `${slideIndex}_${rId}`. -/
def mediaKey (slideIndex : Nat) (rId : String) : String :=
  natDec slideIndex ++ "_" ++ rId

/-- The base64 alphabet. -/
def base64Chars : List Char :=
  "ABCDEFGHIJKLMNOPQRSTUVWXYZabcdefghijklmnopqrstuvwxyz0123456789+/".data

/-- One base64 alphabet character. -/
def base64Char (n : Nat) : Char :=
  base64Chars.getD n '?'

/-- `Buffer.toString('base64')`. -/
def base64Encode : List Nat → String
  | [] => ""
  | [a] =>
    String.mk [base64Char (a / 4), base64Char (a % 4 * 16)] ++ "=="
  | [a, b] =>
    String.mk [base64Char (a / 4), base64Char (a % 4 * 16 + b / 16), base64Char (b % 16 * 4)] ++ "="
  | a :: b :: c :: rest =>
    String.mk [base64Char (a / 4), base64Char (a % 4 * 16 + b / 16),
      base64Char (b % 16 * 4 + c / 64), base64Char (c % 64)] ++ base64Encode rest

/-- One entry of the conversion context's media map. -/
structure MediaEntry where
  type : String
  data : String
  mimeType : String
deriving Repr, DecidableEq

/-- The media-map value stored by `processMedia` for one media blob. -/
def mediaEntryOf (mediaInfo : MediaInfo) : MediaEntry :=
  { type :=
      if strStartsWith mediaInfo.contentType "image" then "image"
      else if strStartsWith mediaInfo.contentType "video" then "video"
      else "audio"
    data := base64Encode mediaInfo.data
    mimeType := mediaInfo.contentType }

/-- The inner loop of `processMedia` for one slide's media map. -/
def processMediaSlide (slideIndex : Nat) (slideMedia : List (String × MediaInfo))
    (mediaMap : List (String × MediaEntry)) : List (String × MediaEntry) :=
  slideMedia.foldl (fun m pr => recordSet m (mediaKey slideIndex pr.1) (mediaEntryOf pr.2)) mediaMap

/-- The `forEach` of `processMedia`, carrying the slide index. -/
def processMediaGo (slideIndex : Nat) :
    List (List (String × MediaInfo)) → List (String × MediaEntry) → List (String × MediaEntry)
  | [], mediaMap => mediaMap
  | s :: rest, mediaMap => processMediaGo (slideIndex + 1) rest (processMediaSlide slideIndex s mediaMap)

/-- `processMedia` (services/converter.ts): store every slide's media
entries in the context media map under the composite key
`${slideIndex}_${rId}` (base64 data, type classified from the MIME type). -/
def processMedia (slideMediaMaps : List (List (String × MediaInfo)))
    (mediaMap : List (String × MediaEntry)) : List (String × MediaEntry) :=
  processMediaGo 0 slideMediaMaps mediaMap

/-! ## Spec-side definitions used to state the claims -/

/-- The variant tag of a parsed element. -/
def PPTXElement.kind : PPTXElement → String
  | .text .. => "text"
  | .shape .. => "shape"
  | .image .. => "image"
  | .video .. => "video"
  | .audio .. => "audio"
  | .line .. => "line"
  | .chart .. => "chart"
  | .table .. => "table"

/-- Level 1 of the spec's text-color inheritance chain: the run's explicit
solid fill (populated = JS-truthy). -/
def textColorLevel1 (run : Xml) : Option Xml :=
  let o := Xml.getOpt (run.get "a:rPr") "a:solidFill"
  if jsTruthyOpt o then o else none

/-- Level 2: the paragraph's default run properties
(`a:pPr`/`a:defRPr`/`a:solidFill`). -/
def textColorLevel2 (paragraph : Xml) : Option Xml :=
  let o := Xml.getOpt (Xml.getOpt (paragraph.get "a:pPr") "a:defRPr") "a:solidFill"
  if jsTruthyOpt o then o else none

/-- Level 3: the list-level default run properties selected by the
paragraph's `lvl` attribute (`a:lvlXpPr`/`a:defRPr`/`a:solidFill`). -/
def textColorLevel3 (paragraph : Xml) : Option Xml :=
  match paragraph.get "a:pPr" with
  | some pPrNode =>
    if jsTruthy pPrNode then
      match Xml.getOpt (pPrNode.get "attrs") "lvl" with
      | some levelAttr =>
        let levelStr :=
          match parseIntTS (jsString levelAttr) with
          | some i => toString i
          | none => "NaN"
        let o := Xml.getOpt (Xml.getOpt (pPrNode.get ("a:lvl" ++ levelStr ++ "pPr")) "a:defRPr")
          "a:solidFill"
        if jsTruthyOpt o then o else none
      | none => none
    else none
  | none => none

/-- Level 4: the text body's list-style default run properties
(`a:lstStyle`/`a:defRPr`/`a:solidFill`). -/
def textColorLevel4 (txBody : Xml) : Option Xml :=
  let o := getTextByPathList (txBody.get "a:lstStyle") ["a:defRPr", "a:solidFill"]
  if jsTruthyOpt o then o else none

/-- The spec's 4-level chain: the first populated level wins; `none` when
no level is populated. -/
def firstPopulatedTextColorLevel (run paragraph txBody : Xml) : Option Xml :=
  match textColorLevel1 run with
  | some n => some n
  | none =>
    match textColorLevel2 paragraph with
    | some n => some n
    | none =>
      match textColorLevel3 paragraph with
      | some n => some n
      | none => textColorLevel4 txBody

/-- The spec's color-map override chain: the first JS-truthy of slide
override → layout override → master base map. -/
def clrMapOvrChainSpec (context : ParsingContext) : Option Xml :=
  let sldOvr := getTextByPathList context.slideContent
    ["p:sld", "p:clrMapOvr", "a:overrideClrMapping", "attrs"]
  if jsTruthyOpt sldOvr then sldOvr
  else
    let layoutOvr := getTextByPathList context.slideLayoutContent
      ["p:sldLayout", "p:clrMapOvr", "a:overrideClrMapping", "attrs"]
    if jsTruthyOpt layoutOvr then layoutOvr
    else
      let masterMap := getTextByPathList context.slideMasterContent
        ["p:sldMaster", "p:clrMap", "attrs"]
      if jsTruthyOpt masterMap then masterMap else none

/-- The spec's logical → physical slot remapping: `tx1`/`tx2`/`bg1`/`bg2`
map through the override (falling back to themselves), every other name —
accent slots included — is unchanged. -/
def physicalSlotNameSpec (ovr : Xml) (name : String) : String :=
  if name = "tx1" ∨ name = "tx2" ∨ name = "bg1" ∨ name = "bg2" then
    jsOrString (ovr.get name) name
  else name

/-- The spec's theme-slot read: the slot's `a:srgbClr` `val`, falling back
to `a:sysClr` `lastClr`, else the empty color. -/
def themeSlotValueSpec (context : ParsingContext) (slot : String) : String :=
  let refNode := getTextByPathList context.themeContent
    ["a:theme", "a:themeElements", "a:clrScheme", slot]
  let color := jsOrString (getTextByPathList refNode ["a:srgbClr", "attrs", "val"]) ""
  if color = "" ∧ refNode.isSome then
    jsOrString (getTextByPathList refNode ["a:sysClr", "attrs", "lastClr"]) ""
  else color

/-! ## Concrete inputs used by witnesses and counterexamples -/

/-- An `a:srgbClr` node with value `FF0000` and an `a:alpha` child. -/
def srgbClrNode (alphaVal : String) : Xml :=
  .obj [("attrs", .obj [("val", .text "FF0000")]),
        ("a:alpha", .obj [("attrs", .obj [("val", .text alphaVal)])])]

/-- A `solidFill` node holding `srgbClrNode alphaVal`. -/
def srgbWithAlpha (alphaVal : String) : Xml :=
  .obj [("a:srgbClr", srgbClrNode alphaVal)]

/-- A minimal `p:sp` node (no text body). -/
def spNodeW (idStr : String) : Xml :=
  .obj [("p:nvSpPr", .obj [("p:cNvPr", .obj [("attrs", .obj [("id", .text idStr)])])])]

/-- A `p:sp` node whose text body holds a single run with the given text. -/
def spNodeWithText (idStr runText : String) : Xml :=
  .obj [("p:nvSpPr", .obj [("p:cNvPr", .obj [("attrs", .obj [("id", .text idStr)])])]),
        ("p:txBody", .obj [("a:p", .obj [("a:r", .obj [("a:t", .text runText)])])])]

/-- A minimal `p:pic` node with an embedded image relationship. -/
def picNodeW : Xml :=
  .obj [("p:nvPicPr", .obj [("p:cNvPr", .obj [("attrs", .obj [("id", .text "3")])])]),
        ("p:blipFill", .obj [("a:blip", .obj [("attrs", .obj [("r:embed", .text "rId1")])])])]

/-- A `p:pic` node with a video link but *no* `a:blip` `r:embed`. -/
def picNodeNoEmbedVideo : Xml :=
  .obj [("p:nvPicPr", .obj [("p:cNvPr", .obj [("attrs", .obj [("id", .text "7")])]),
          ("p:nvPr", .obj [("a:videoFile", .obj [("attrs", .obj [("r:link", .text "rId9")])])])]),
        ("p:blipFill", .obj [])]

/-- A minimal `p:cxnSp` node. -/
def cxnNodeW : Xml :=
  .obj [("p:nvCxnSpPr", .obj [("p:cNvPr", .obj [("attrs", .obj [("id", .text "4")])])])]

/-- The normalizer's grouped form of a shape tree whose *raw document
order* is `sp₁, pic₁, sp₂, cxnSp₁`: same-tag siblings are grouped into one
list at the tag's first-occurrence position, destroying the cross-tag
interleaving. -/
def spTreeGroupedW : Xml :=
  .obj [("p:nvGrpSpPr", .obj []), ("p:grpSpPr", .obj []),
        ("p:sp", .arr [spNodeW "1", spNodeW "2"]),
        ("p:pic", .arr [picNodeW]),
        ("p:cxnSp", .arr [cxnNodeW])]

/-- The slide part holding `spTreeGroupedW`. -/
def slideXmlW : Xml :=
  .obj [("p:sld", .obj [("p:cSld", .obj [("p:spTree", spTreeGroupedW)])])]

/-- A one-slide zip for the interleaving test. -/
def zipInterleaveW : Zip :=
  [("ppt/slides/slide1.xml", .xml slideXmlW)]

/-- A zip containing an `EncryptedPackage` entry (password-protected file),
alongside a well-formed presentation part. -/
def zipEncryptedW : Zip :=
  [("EncryptedPackage", .bin [1, 2, 3]),
   ("ppt/presentation.xml", .xml (.obj [("p:presentation", .obj [])]))]

/-- A master part whose `p:clrMap` maps the four logical slots. -/
def masterClrMapW : Xml :=
  .obj [("tx1", .text "dk1"), ("tx2", .text "dk2"),
        ("bg1", .text "lt1"), ("bg2", .text "lt2")]

/-- The master part for the C6 witness. -/
def masterXmlW : Xml :=
  .obj [("p:sldMaster", .obj [("p:clrMap", .obj [("attrs", masterClrMapW)])])]

/-- The theme part for the C6 witness: `a:dk1` is `112233`. -/
def themeXmlW : Xml :=
  .obj [("a:theme", .obj [("a:themeElements", .obj [("a:clrScheme",
    .obj [("a:dk1", .obj [("a:srgbClr", .obj [("attrs", .obj [("val", .text "112233")])])])])])])]

/-- The C6 witness context: no slide/layout override, a master color map,
and a theme. -/
def ctxSchemeW : ParsingContext :=
  { createDefaultParsingContext with
      slideMasterContent := some masterXmlW
      themeContent := some themeXmlW }

/-- A concrete HSL color with lightness 1/2 (C8 witness input). -/
def hslHalfW : Hsla := ⟨0, 0, 1 / 2, 1⟩

/-- The value of a little-endian decimal digit list (used to show the
decimal rendering is injective). -/
def evalLE : List Nat → Nat
  | [] => 0
  | d :: ds => d + 10 * evalLE ds

/-- The digit list behind `natDec`, covering zero uniformly. -/
def natDecDigits (n : Nat) : List Nat :=
  if n = 0 then [0] else natDigitsLE n

/-- A first media blob (a PNG on slide 0 referenced as `rId1`). -/
def mediaInfoW0 : MediaInfo := { data := [1, 2, 3], contentType := "image/png" }

/-- A second, different media blob (a JPEG on slide 1, also `rId1`). -/
def mediaInfoW1 : MediaInfo := { data := [9, 9], contentType := "image/jpeg" }

/-- Two slides whose media maps both use the bare relationship id `rId1`,
pointing at different media. -/
def slideMediaMapsW : List (List (String × MediaInfo)) :=
  [[("rId1", mediaInfoW0)], [("rId1", mediaInfoW1)]]

/-! ## Helper lemmas -/

/-- A string is non-empty iff its length is positive. -/
theorem str_ne_empty_iff_length_pos (s : String) : s ≠ "" ↔ 0 < s.length := by
  rw [← String.length_data]
  constructor
  · intro h
    cases hd : s.data with
    | nil => exact absurd (String.ext (by simp [hd])) h
    | cons c cs => simp [hd]
  · intro h hs
    subst hs
    simp at h

/-- `trimTS s` is non-empty iff `s` is non-empty and its trimmed length is
positive (the two ways the source and the spec state "non-whitespace"). -/
theorem trim_ne_empty_iff (s : String) : trimTS s ≠ "" ↔ (s ≠ "" ∧ 0 < (trimTS s).length) := by
  constructor
  · intro h
    refine ⟨?_, (str_ne_empty_iff_length_pos (trimTS s)).mp h⟩
    intro hs
    subst hs
    exact h (by decide)
  · rintro ⟨-, hl⟩
    exact (str_ne_empty_iff_length_pos (trimTS s)).mpr hl

/-- The fuel-structured digit extraction is correct whenever the fuel
exceeds the number. -/
theorem natDigitsLEAux_eval : ∀ fuel n, n < fuel → evalLE (natDigitsLEAux fuel n) = n := by
  intro fuel
  induction fuel with
  | zero => intro n h; omega
  | succ f ih =>
    intro n h
    by_cases h0 : n = 0
    · subst h0; simp [natDigitsLEAux, evalLE]
    · have hn : 0 < n := Nat.pos_of_ne_zero h0
      have hdiv : n / 10 < f := by
        have := Nat.div_lt_self hn (by norm_num : 1 < 10)
        omega
      simp only [natDigitsLEAux, h0, if_false, evalLE, ih _ hdiv]
      omega

/-- `natDigitsLE` recovers its number. -/
theorem natDigitsLE_eval (n : Nat) : evalLE (natDigitsLE n) = n :=
  natDigitsLEAux_eval (n + 1) n (Nat.lt_succ_self n)

/-- Every extracted digit is below 10. -/
theorem natDigitsLEAux_lt_ten : ∀ fuel n d, d ∈ natDigitsLEAux fuel n → d < 10 := by
  intro fuel
  induction fuel with
  | zero => intro n d h; simp [natDigitsLEAux] at h
  | succ f ih =>
    intro n d h
    by_cases h0 : n = 0
    · subst h0; simp [natDigitsLEAux] at h
    · simp only [natDigitsLEAux, h0, if_false, List.mem_cons] at h
      rcases h with h | h
      · subst h; exact Nat.mod_lt n (by norm_num)
      · exact ih _ _ h

/-- The uniform digit list recovers its number. -/
theorem natDecDigits_eval (n : Nat) : evalLE (natDecDigits n) = n := by
  by_cases h0 : n = 0
  · subst h0; simp [natDecDigits, evalLE]
  · rw [natDecDigits, if_neg h0]
    exact natDigitsLE_eval n

/-- Every digit of the uniform digit list is below 10. -/
theorem natDecDigits_lt_ten (n d : Nat) (h : d ∈ natDecDigits n) : d < 10 := by
  by_cases h0 : n = 0
  · subst h0; simp [natDecDigits] at h; omega
  · rw [natDecDigits, if_neg h0] at h
    exact natDigitsLEAux_lt_ten _ _ _ h

/-- `natDec` renders the reversed uniform digit list. -/
theorem natDec_eq_digits (n : Nat) :
    natDec n = String.mk ((natDecDigits n).reverse.map digitCharDec) := by
  by_cases h0 : n = 0
  · subst h0; rfl
  · simp [natDec, natDecDigits, h0]

/-- The digit character map is injective on digits. -/
theorem digitCharDec_inj_lt : ∀ a < 10, ∀ b < 10, digitCharDec a = digitCharDec b → a = b := by
  decide

/-- No digit character is an underscore. -/
theorem digitCharDec_lt_ne_underscore : ∀ d < 10, digitCharDec d ≠ '_' := by
  decide

/-- Mapping the digit character map over digit lists is injective. -/
theorem map_digitCharDec_inj : ∀ (as bs : List Nat),
    (∀ d ∈ as, d < 10) → (∀ d ∈ bs, d < 10) →
    as.map digitCharDec = bs.map digitCharDec → as = bs := by
  intro as
  induction as with
  | nil =>
    intro bs _ _ h
    cases bs with
    | nil => rfl
    | cons b bs => simp at h
  | cons a as ih =>
    intro bs ha hb h
    cases bs with
    | nil => simp at h
    | cons b bs =>
      simp only [List.map_cons, List.cons.injEq] at h
      have ha10 : a < 10 := ha a (by simp)
      have hb10 : b < 10 := hb b (by simp)
      have hab : a = b := digitCharDec_inj_lt a ha10 b hb10 h.1
      have htail := ih bs (fun d hd => ha d (by simp [hd])) (fun d hd => hb d (by simp [hd])) h.2
      rw [hab, htail]

/-- The JS decimal rendering of a natural number is injective. -/
theorem natDec_inj {m n : Nat} (h : natDec m = natDec n) : m = n := by
  rw [natDec_eq_digits, natDec_eq_digits] at h
  have hd : (natDecDigits m).reverse.map digitCharDec
      = (natDecDigits n).reverse.map digitCharDec := by
    injection h
  have hrev := map_digitCharDec_inj _ _
    (fun d hdm => natDecDigits_lt_ten m d (List.mem_reverse.mp hdm))
    (fun d hdn => natDecDigits_lt_ten n d (List.mem_reverse.mp hdn)) hd
  have hdig : natDecDigits m = natDecDigits n := List.reverse_injective hrev
  calc m = evalLE (natDecDigits m) := (natDecDigits_eval m).symm
    _ = evalLE (natDecDigits n) := by rw [hdig]
    _ = n := natDecDigits_eval n

/-- The decimal rendering contains no underscore. -/
theorem natDec_no_underscore (n : Nat) : '_' ∉ (natDec n).data := by
  rw [natDec_eq_digits]
  intro hmem
  rcases List.mem_map.mp hmem with ⟨d, hd, hEq⟩
  exact digitCharDec_lt_ne_underscore d (natDecDigits_lt_ten n d (List.mem_reverse.mp hd)) hEq

/-- Splitting on the first underscore when neither prefix list contains
one. -/
theorem append_underscore_inj : ∀ (as cs bs ds : List Char), '_' ∉ as → '_' ∉ cs →
    as ++ '_' :: bs = cs ++ '_' :: ds → as = cs ∧ bs = ds := by
  intro as
  induction as with
  | nil =>
    intro cs bs ds _ hcs h
    cases cs with
    | nil => simpa using h
    | cons c cs =>
      simp only [List.nil_append, List.cons_append, List.cons.injEq] at h
      exfalso
      apply hcs
      rw [← h.1]
      exact List.mem_cons_self '_' cs
  | cons a as ih =>
    intro cs bs ds has hcs h
    cases cs with
    | nil =>
      simp only [List.cons_append, List.nil_append, List.cons.injEq] at h
      exfalso
      apply has
      rw [h.1]
      exact List.mem_cons_self '_' as
    | cons c cs =>
      simp only [List.cons_append, List.cons.injEq] at h
      have has' : '_' ∉ as := fun hm => has (List.mem_cons_of_mem a hm)
      have hcs' : '_' ∉ cs := fun hm => hcs (List.mem_cons_of_mem c hm)
      obtain ⟨h1, h2⟩ := ih cs bs ds has' hcs' h.2
      exact ⟨by rw [h.1, h1], h2⟩

/-- Composite keys are injective: equal keys force equal slide index and
equal relationship id. -/
theorem mediaKey_inj_index {i j : Nat} {r s : String} (h : mediaKey i r = mediaKey j s) :
    i = j ∧ r = s := by
  have hu : ("_" : String).data = ['_'] := rfl
  have hdata : (natDec i).data ++ '_' :: r.data = (natDec j).data ++ '_' :: s.data := by
    have hc := congrArg String.data h
    simpa [mediaKey, String.data_append, hu] using hc
  obtain ⟨h1, h2⟩ := append_underscore_inj _ _ _ _
    (natDec_no_underscore i) (natDec_no_underscore j) hdata
  exact ⟨natDec_inj (String.ext h1), String.ext h2⟩

/-- Looking up the key just set in an association list. -/
theorem assocGet_recordSet_self {α : Type} (l : List (String × α)) (k : String) (v : α) :
    assocGet (recordSet l k v) k = some v := by
  induction l with
  | nil => simp [recordSet, assocGet]
  | cons p rest ih =>
    obtain ⟨k₀, v₀⟩ := p
    by_cases hk : k₀ = k
    · simp [recordSet, hk, assocGet]
    · simp [recordSet, hk, assocGet, ih]

/-- Setting one key leaves every other key's lookup unchanged. -/
theorem assocGet_recordSet_ne {α : Type} (l : List (String × α)) (k k' : String) (v : α)
    (h : k' ≠ k) : assocGet (recordSet l k v) k' = assocGet l k' := by
  induction l with
  | nil => simp [recordSet, assocGet, h.symm]
  | cons p rest ih =>
    obtain ⟨k₀, v₀⟩ := p
    by_cases hk : k₀ = k
    · subst hk
      simp [recordSet, assocGet, h.symm]
    · simp only [recordSet, hk, if_false, assocGet]
      by_cases hk' : k₀ = k'
      · simp [hk']
      · simp [hk', ih]

/-- Processing one slide's media leaves keys of other slides (or other
relationship ids) unchanged. -/
theorem processMediaSlide_get_ne (si : Nat) (sm : List (String × MediaInfo))
    (mm : List (String × MediaEntry)) (key : String)
    (h : ∀ r ∈ sm.map Prod.fst, key ≠ mediaKey si r) :
    assocGet (processMediaSlide si sm mm) key = assocGet mm key := by
  revert h
  induction sm generalizing mm with
  | nil => intro h; rfl
  | cons p rest ih =>
    intro h
    have hne : key ≠ mediaKey si p.1 := h p.1 (by simp)
    calc assocGet (processMediaSlide si (p :: rest) mm) key
        = assocGet (processMediaSlide si rest
            (recordSet mm (mediaKey si p.1) (mediaEntryOf p.2))) key := rfl
      _ = assocGet (recordSet mm (mediaKey si p.1) (mediaEntryOf p.2)) key :=
          ih _ (fun r hr => h r (by simp [hr]))
      _ = assocGet mm key := assocGet_recordSet_ne _ _ _ _ hne

/-- Processing one slide's media map makes every one of its entries
retrievable under the composite key (when the slide's relationship ids are
distinct, as they are in a JS `Map`). -/
theorem processMediaSlide_get (si : Nat) (sm : List (String × MediaInfo))
    (mm : List (String × MediaEntry)) (r : String) (v : MediaInfo)
    (hmem : (r, v) ∈ sm) (hnd : (sm.map Prod.fst).Nodup) :
    assocGet (processMediaSlide si sm mm) (mediaKey si r) = some (mediaEntryOf v) := by
  revert hmem hnd
  induction sm generalizing mm with
  | nil => intro hmem _; simp at hmem
  | cons p rest ih =>
    intro hmem hnd
    simp only [List.map_cons, List.nodup_cons] at hnd
    rcases List.mem_cons.mp hmem with hhd | htl
    · have hkey : p.1 = r := by rw [← hhd]
      have hval : p.2 = v := by rw [← hhd]
      have hstep : processMediaSlide si (p :: rest) mm
          = processMediaSlide si rest (recordSet mm (mediaKey si r) (mediaEntryOf v)) := by
        rw [show processMediaSlide si (p :: rest) mm
            = processMediaSlide si rest
              (recordSet mm (mediaKey si p.1) (mediaEntryOf p.2)) from rfl, hkey, hval]
      rw [hstep]
      rw [processMediaSlide_get_ne si rest _ _ (fun r' hr' heq => by
        have hrr : r = r' := (mediaKey_inj_index heq).2
        exact hnd.1 (by rw [hkey, hrr]; exact hr'))]
      exact assocGet_recordSet_self _ _ _
    · exact ih _ htl hnd.2

/-- `processMediaGo` starting at slide index `si` never touches a key of a
smaller slide index. -/
theorem processMediaGo_get_lt (maps : List (List (String × MediaInfo))) (si si' : Nat)
    (r : String) (mm : List (String × MediaEntry)) (h : si' < si) :
    assocGet (processMediaGo si maps mm) (mediaKey si' r) = assocGet mm (mediaKey si' r) := by
  revert h
  induction maps generalizing si mm with
  | nil => intro h; rfl
  | cons s rest ih =>
    intro h
    calc assocGet (processMediaGo si (s :: rest) mm) (mediaKey si' r)
        = assocGet (processMediaGo (si + 1) rest (processMediaSlide si s mm))
            (mediaKey si' r) := rfl
      _ = assocGet (processMediaSlide si s mm) (mediaKey si' r) := ih (si + 1) _ (by omega)
      _ = assocGet mm (mediaKey si' r) :=
          processMediaSlide_get_ne si s mm _ (fun r' _ heq => by
            have := (mediaKey_inj_index heq).1; omega)

/-- `processMediaGo` makes every entry of every slide retrievable under its
composite key. -/
theorem processMediaGo_get (maps : List (List (String × MediaInfo))) (si i : Nat)
    (sm : List (String × MediaInfo)) (r : String) (v : MediaInfo)
    (mm : List (String × MediaEntry))
    (hi : maps.get? i = some sm) (hmem : (r, v) ∈ sm) (hnd : (sm.map Prod.fst).Nodup) :
    assocGet (processMediaGo si maps mm) (mediaKey (si + i) r) = some (mediaEntryOf v) := by
  revert hi
  induction maps generalizing si i mm with
  | nil => intro hi; simp [List.get?] at hi
  | cons s rest ih =>
    intro hi
    cases i with
    | zero =>
      have hs : s = sm := by simpa [List.get?] using hi
      subst hs
      calc assocGet (processMediaGo si (s :: rest) mm) (mediaKey (si + 0) r)
          = assocGet (processMediaGo (si + 1) rest (processMediaSlide si s mm))
              (mediaKey si r) := by rw [Nat.add_zero]; rfl
        _ = assocGet (processMediaSlide si s mm) (mediaKey si r) :=
            processMediaGo_get_lt rest (si + 1) si r _ (by omega)
        _ = some (mediaEntryOf v) := processMediaSlide_get si s mm r v hmem hnd
    | succ i' =>
      have hi' : rest.get? i' = some sm := by simpa [List.get?] using hi
      have hidx : si + (i' + 1) = (si + 1) + i' := by omega
      calc assocGet (processMediaGo si (s :: rest) mm) (mediaKey (si + (i' + 1)) r)
          = assocGet (processMediaGo (si + 1) rest (processMediaSlide si s mm))
              (mediaKey ((si + 1) + i') r) := by rw [hidx]; rfl
        _ = some (mediaEntryOf v) := ih (si + 1) i' _ hi'

/-! ## Claim theorems -/

/-- C1 (code bug): the modules-conversion `parseSingleSlide` walks the key
order of the *normalized* shape-tree object and consumes each tag's whole
list at once, so for a slide whose raw document order interleaves tags —
here `sp, pic, sp, cxnSp` — the parsed element list comes out grouped by
tag (`shape, shape, image, line`) instead of preserving the raw document
order (`shape, image, shape, line`), contradicting the claim, the
function's own z-order comment, and the two-level order reconstruction
that `parseShapeTree` (services/pptx/parser.ts) performs. -/
theorem C1_parseSingleSlide_groups_same_tag_elements :
    (parseSingleSlide zipInterleaveW "ppt/slides/slide1.xml" 1
        createDefaultParsingContext).elements.map PPTXElement.kind
      = ["shape", "shape", "image", "line"]
    ∧ ["shape", "shape", "image", "line"] ≠ ["shape", "image", "shape", "line"] := by
  decide

/-- C2: media references that use the same relationship id on two
different slides are stored by `processMedia` under distinct composite keys
`${slideIndex}_${rId}`, so both entries are retrievable from the
presentation-level media map without one overwriting the other (the
per-slide relationship ids are distinct, as the keys of a JS `Map` are). -/
theorem C2_composite_media_keys (maps : List (List (String × MediaInfo)))
    (i j : Nat) (r : String) (smi smj : List (String × MediaInfo)) (vi vj : MediaInfo)
    (hij : i ≠ j)
    (hi : maps.get? i = some smi) (hj : maps.get? j = some smj)
    (hmi : (r, vi) ∈ smi) (hmj : (r, vj) ∈ smj)
    (hni : (smi.map Prod.fst).Nodup) (hnj : (smj.map Prod.fst).Nodup) :
    mediaKey i r ≠ mediaKey j r
    ∧ assocGet (processMedia maps []) (mediaKey i r) = some (mediaEntryOf vi)
    ∧ assocGet (processMedia maps []) (mediaKey j r) = some (mediaEntryOf vj) := by
  refine ⟨fun h => hij (mediaKey_inj_index h).1, ?_, ?_⟩
  · have h := processMediaGo_get maps 0 i smi r vi [] hi hmi hni
    simpa [processMedia] using h
  · have h := processMediaGo_get maps 0 j smj r vj [] hj hmj hnj
    simpa [processMedia] using h

/-- C2 witness: slide 0's `rId1` and slide 1's `rId1` point at different
media (a PNG and a JPEG); both are retrievable from the processed media map
under distinct composite keys. -/
theorem C2_witness :
    slideMediaMapsW.get? 0 = some [("rId1", mediaInfoW0)]
    ∧ slideMediaMapsW.get? 1 = some [("rId1", mediaInfoW1)]
    ∧ mediaInfoW0 ≠ mediaInfoW1
    ∧ (mediaKey 0 "rId1" ≠ mediaKey 1 "rId1"
      ∧ assocGet (processMedia slideMediaMapsW []) (mediaKey 0 "rId1")
          = some (mediaEntryOf mediaInfoW0)
      ∧ assocGet (processMedia slideMediaMapsW []) (mediaKey 1 "rId1")
          = some (mediaEntryOf mediaInfoW1)) :=
  ⟨rfl, rfl, by decide,
    C2_composite_media_keys slideMediaMapsW 0 1 "rId1"
      [("rId1", mediaInfoW0)] [("rId1", mediaInfoW1)] mediaInfoW0 mediaInfoW1
      (by decide) rfl rfl (by simp) (by simp) (by simp) (by simp)⟩

/-- C4 (counterexample): `resolveSolidFillWithAlpha` returns the separate
alpha field whenever the `a:alpha` child parses — including a fully-opaque
`alpha = 100000`, which the claim says never carries an opacity field — and
a fully-transparent `alpha = 0` yields a fill record with `alpha = 0`, not
absence of fill. -/
theorem C4_counterexample :
    (resolveSolidFillWithAlpha (some (srgbWithAlpha "100000")) createDefaultParsingContext
      none none).alpha.isSome = true
    ∧ (resolveSolidFillWithAlpha (some (srgbWithAlpha "0")) createDefaultParsingContext
      none none).color = "#FF0000"
    ∧ (resolveSolidFillWithAlpha (some (srgbWithAlpha "0")) createDefaultParsingContext
      none none).alpha = some 0 := by
  refine ⟨?_, ?_, ?_⟩
  · simp only [resolveSolidFillWithAlpha]
    decide
  · simp only [resolveSolidFillWithAlpha]
    decide
  · have e : (resolveSolidFillWithAlpha (some (srgbWithAlpha "0")) createDefaultParsingContext
        none none).alpha = some (((0 : ℤ) : ℚ) / 100000) := by
      simp only [resolveSolidFillWithAlpha]
      rfl
    rw [e]
    simp

/-- C8: on the HSL cores of `applyTint` / `applyShade` (which operate on
the lightness exactly as the source computes it), tint with factor 1 and
shade with factor 1 leave the lightness unchanged, tint with factor 0
drives the lightness to 1 (white) and shade with factor 0 drives it to 0
(black). -/
theorem C8_tint_shade_boundaries (c : Hsla) (h : c.l ≤ 1) :
    (tintHsl c 1).l = c.l ∧ (shadeHsl c 1).l = c.l
    ∧ (tintHsl c 0).l = 1 ∧ (shadeHsl c 0).l = 0 := by
  refine ⟨?_, ?_, ?_, ?_⟩
  · simp [tintHsl]
  · simp [shadeHsl, min_eq_left h]
  · simp [tintHsl]
  · simp [shadeHsl]

/-- C8 witness: the boundary behaviour at a concrete color with lightness
1/2. -/
theorem C8_witness :
    hslHalfW.l ≤ 1
    ∧ ((tintHsl hslHalfW 1).l = hslHalfW.l ∧ (shadeHsl hslHalfW 1).l = hslHalfW.l
      ∧ (tintHsl hslHalfW 0).l = 1 ∧ (shadeHsl hslHalfW 0).l = 0) :=
  ⟨by norm_num [hslHalfW], C8_tint_shade_boundaries hslHalfW (by norm_num [hslHalfW])⟩

/-- C9: a zip containing an `EncryptedPackage` entry makes `parsePPTX`
fail fast with the typed protected-file error (machine-readable code
`ERR_PROTECTED_FILE`), producing no presentation output — the check is the
first thing `parsePPTX` does, before any slide is parsed. -/
theorem C9_encrypted_package_fails_fast (zip : Zip)
    (h : (zipFile zip "EncryptedPackage").isSome = true) :
    parsePPTX zip = .error .protectedFile
    ∧ ConversionError.protectedFile.code = "ERR_PROTECTED_FILE" := by
  constructor
  · unfold parsePPTX
    simp [h]
  · rfl

/-- C9 witness: a concrete zip with an `EncryptedPackage` entry next to a
well-formed presentation part. -/
theorem C9_witness :
    (zipFile zipEncryptedW "EncryptedPackage").isSome = true
    ∧ (parsePPTX zipEncryptedW = .error .protectedFile
      ∧ ConversionError.protectedFile.code = "ERR_PROTECTED_FILE") :=
  ⟨by decide, C9_encrypted_package_fails_fast zipEncryptedW (by decide)⟩

/-- C10: a `pic` element whose `blipFill` carries no `a:blip` `r:embed`
relationship id makes `parsePicture` return `null`, dropping the element —
this check runs before the video/audio classification, so it drops the
element regardless of any `a:videoFile` / `a:audioFile` link. -/
theorem C10_picture_without_embed_dropped (pic : Xml) (context : ParsingContext)
    (h : jsTruthyOpt (getTextByPathList (pic.get "p:blipFill")
      ["a:blip", "attrs", "r:embed"]) = false) :
    parsePicture pic context = none := by
  unfold parsePicture
  simp [h]

/-- C10 witness: a concrete `pic` with an `a:videoFile` link but no blip
embed is dropped (and its video link is indeed present). -/
theorem C10_witness :
    jsTruthyOpt (getTextByPathList (picNodeNoEmbedVideo.get "p:blipFill")
      ["a:blip", "attrs", "r:embed"]) = false
    ∧ jsTruthyOpt (getTextByPathList (Xml.getOpt (picNodeNoEmbedVideo.get "p:nvPicPr") "p:nvPr")
      ["a:videoFile", "attrs", "r:link"]) = true
    ∧ parsePicture picNodeNoEmbedVideo createDefaultParsingContext = none :=
  ⟨by decide, by decide,
    C10_picture_without_embed_dropped picNodeNoEmbedVideo createDefaultParsingContext (by decide)⟩

/-- `parseShape`'s text detection agrees with "some run has non-whitespace
text". -/
theorem shapeHasActualText_iff (paragraphs : List PPTXParagraph) :
    shapeHasActualText paragraphs = true ↔
      ∃ p ∈ paragraphs, ∃ r ∈ p.runs, trimTS r.text ≠ "" := by
  simp only [shapeHasActualText, List.any_eq_true, decide_eq_true_eq]
  constructor
  · rintro ⟨p, hp, r, hr, h1, h2⟩
    exact ⟨p, hp, r, hr, (trim_ne_empty_iff r.text).mpr ⟨h1, h2⟩⟩
  · rintro ⟨p, hp, r, hr, h⟩
    obtain ⟨h1, h2⟩ := (trim_ne_empty_iff r.text).mp h
    exact ⟨p, hp, r, hr, h1, h2⟩

/-- The classification of `parseShape` is decided exactly by its text
detection. -/
theorem parseShape_kind_eq (shape : Xml) (context : ParsingContext) :
    (parseShape shape context).map PPTXElement.kind =
      some (if shapeHasActualText (parseShapeParagraphs shape context) then "text" else "shape") := by
  by_cases h : shapeHasActualText (parseShapeParagraphs shape context) = true
  · simp [parseShape, h, PPTXElement.kind]
  · simp only [Bool.not_eq_true] at h
    simp [parseShape, h, PPTXElement.kind]

/-- C3: `parseShape` classifies the element as text iff some parsed run of
its text body has non-whitespace text, and as a plain shape otherwise; in
particular a single run `"   "` yields a shape and a single run `" a "`
yields a text element. -/
theorem C3_text_vs_shape_classification (shape : Xml) (context : ParsingContext) :
    ((parseShape shape context).map PPTXElement.kind = some "text" ↔
      ∃ p ∈ parseShapeParagraphs shape context, ∃ r ∈ p.runs, trimTS r.text ≠ "")
    ∧ ((parseShape shape context).map PPTXElement.kind = some "shape" ↔
      ¬ ∃ p ∈ parseShapeParagraphs shape context, ∃ r ∈ p.runs, trimTS r.text ≠ "")
    ∧ (parseShape (spNodeWithText "5" "   ") createDefaultParsingContext).map PPTXElement.kind
      = some "shape"
    ∧ (parseShape (spNodeWithText "5" " a ") createDefaultParsingContext).map PPTXElement.kind
      = some "text" := by
  have hiff := shapeHasActualText_iff (parseShapeParagraphs shape context)
  have hkind := parseShape_kind_eq shape context
  refine ⟨?_, ?_, by decide, by decide⟩
  · rw [hkind]
    by_cases h : shapeHasActualText (parseShapeParagraphs shape context) = true
    · exact iff_of_true (by simp [h]) (hiff.mp h)
    · exact iff_of_false (by simp [h]) (fun hx => h (hiff.mpr hx))
  · rw [hkind]
    by_cases h : shapeHasActualText (parseShapeParagraphs shape context) = true
    · exact iff_of_false (by simp [h]) (fun hn => hn (hiff.mp h))
    · exact iff_of_true (by simp [h]) (fun hx => h (hiff.mpr hx))

/-- C5: `applyColorModifiers` equals the spec's pipeline — the alpha
modifier handled separately (not an HSL operation), then the present
modifiers folded over the color in the fixed order hue modulation,
luminance modulation, luminance offset, saturation modulation, shade,
tint, each operating on the HSL representation of the color produced by
the previous step. -/
theorem C5_modifier_fixed_order (color : String) (clrNode : Xml) (mergeAlpha : Bool) :
    applyColorModifiers color clrNode mergeAlpha =
      applyColorModifiersSpec color clrNode mergeAlpha := by
  simp only [applyColorModifiers, applyColorModifiersSpec, specModifierOps, List.foldl,
    applyHueMod, applyLumMod, applyLumOff, applySatMod, applyShade, applyTint]

/-- The source's truthiness-gated resolution of one chain level equals the
spec's "populated level, mapped through the resolver". -/
theorem truthyGate_eq (o : Option Xml) (context : ParsingContext) :
    (if jsTruthyOpt o then some (resolveSolidFill o context none none) else none) =
      (if jsTruthyOpt o then o else none).map
        (fun node => resolveSolidFill (some node) context none none) := by
  cases o with
  | none => simp [jsTruthyOpt]
  | some n =>
    by_cases t : jsTruthy n = true
    · simp [jsTruthyOpt, t]
    · simp only [Bool.not_eq_true] at t
      simp [jsTruthyOpt, t]

/-- The source's list-level block equals level 3 of the spec's chain. -/
theorem lvlBlock_eq_spec (paragraph : Xml) (context : ParsingContext) :
    resolveTextColorLvlBlock (paragraph.get "a:pPr") context =
      (textColorLevel3 paragraph).map
        (fun node => resolveSolidFill (some node) context none none) := by
  simp only [resolveTextColorLvlBlock, textColorLevel3]
  cases paragraph.get "a:pPr" with
  | none => simp
  | some pPrNode =>
    by_cases t : jsTruthy pPrNode = true
    · simp only [t, if_true]
      cases Xml.getOpt (pPrNode.get "attrs") "lvl" with
      | none => simp
      | some levelAttr => exact truthyGate_eq _ context
    · simp only [Bool.not_eq_true] at t
      simp [t]

/-- Levels 2–4 of the chain: the source's fallthrough after the run level
equals the spec chain's tail. -/
theorem C7_tail_aux (paragraph txBody : Xml) (context : ParsingContext) :
    (if jsTruthyOpt (Xml.getOpt (Xml.getOpt (paragraph.get "a:pPr") "a:defRPr") "a:solidFill") then
      some (resolveSolidFill
        (Xml.getOpt (Xml.getOpt (paragraph.get "a:pPr") "a:defRPr") "a:solidFill")
        context none none)
     else
      match resolveTextColorLvlBlock (paragraph.get "a:pPr") context with
      | some c => some c
      | none =>
        if jsTruthyOpt (getTextByPathList (txBody.get "a:lstStyle") ["a:defRPr", "a:solidFill"]) then
          some (resolveSolidFill
            (getTextByPathList (txBody.get "a:lstStyle") ["a:defRPr", "a:solidFill"])
            context none none)
        else none) =
      (match textColorLevel2 paragraph with
       | some n => some n
       | none =>
         match textColorLevel3 paragraph with
         | some n => some n
         | none => textColorLevel4 txBody).map
        (fun node => resolveSolidFill (some node) context none none) := by
  have tail3 :
      (match resolveTextColorLvlBlock (paragraph.get "a:pPr") context with
       | some c => some c
       | none =>
         if jsTruthyOpt (getTextByPathList (txBody.get "a:lstStyle") ["a:defRPr", "a:solidFill"]) then
           some (resolveSolidFill
             (getTextByPathList (txBody.get "a:lstStyle") ["a:defRPr", "a:solidFill"])
             context none none)
         else none) =
        (match textColorLevel3 paragraph with
         | some n => some n
         | none => textColorLevel4 txBody).map
          (fun node => resolveSolidFill (some node) context none none) := by
    rw [lvlBlock_eq_spec]
    cases h3 : textColorLevel3 paragraph with
    | some n3 => simp
    | none =>
      simp only [Option.map_none, Option.map]
      simp only [textColorLevel4]
      exact truthyGate_eq _ context
  cases h2 : Xml.getOpt (Xml.getOpt (paragraph.get "a:pPr") "a:defRPr") "a:solidFill" with
  | some n2 =>
    by_cases t2 : jsTruthy n2 = true
    · simp [textColorLevel2, h2, jsTruthyOpt, t2]
    · simp only [Bool.not_eq_true] at t2
      simp only [textColorLevel2, h2, jsTruthyOpt, t2, Bool.false_eq_true, if_false]
      exact tail3
  | none =>
    simp only [textColorLevel2, h2, jsTruthyOpt, Bool.false_eq_true, if_false]
    exact tail3

/-- C7: `resolveTextColor` returns the color resolved from the first
populated level of the spec's 4-level inheritance chain (run-level fill →
paragraph default run properties → list-level default run properties keyed
by the paragraph's nesting level → text-body list-style defaults), and is
left unresolved — not defaulted to black — when no level is populated. -/
theorem C7_text_color_inheritance_chain (run paragraph txBody : Xml)
    (context : ParsingContext) :
    resolveTextColor run paragraph txBody context =
      (firstPopulatedTextColorLevel run paragraph txBody).map
        (fun node => resolveSolidFill (some node) context none none) := by
  simp only [resolveTextColor, firstPopulatedTextColorLevel]
  cases h1 : Xml.getOpt (run.get "a:rPr") "a:solidFill" with
  | some n1 =>
    by_cases t1 : jsTruthy n1 = true
    · simp [textColorLevel1, h1, jsTruthyOpt, t1]
    · simp only [Bool.not_eq_true] at t1
      simp only [textColorLevel1, h1, jsTruthyOpt, t1, Bool.false_eq_true, if_false]
      exact C7_tail_aux paragraph txBody context
  | none =>
    simp only [textColorLevel1, h1, jsTruthyOpt, Bool.false_eq_true, if_false]
    exact C7_tail_aux paragraph txBody context

/-- Stripping the `a:` namespace tag from a prefixed name gives the name
back. -/
theorem stripSchemeName_append (name : String) : stripSchemeName ("a:" ++ name) = name := by
  have hd : ("a:" ++ name).data = 'a' :: ':' :: name.data := rfl
  simp only [stripSchemeName, strStartsWith, strDrop, hd]
  simp [List.isPrefixOf]

/-- C6: with no explicit color-map argument, a scheme color reference
`a:<name>` resolves by remapping `<name>` through the first color-map
override found in the order slide override → layout override → master base
map (`tx1`/`tx2`/`bg1`/`bg2` remapped to physical slots, accent and other
slots unchanged), and reading that physical slot's value from the theme's
color scheme (`a:srgbClr` `val`, falling back to `a:sysClr` `lastClr`). -/
theorem C6_scheme_color_resolution (context : ParsingContext) (name : String) (ovr : Xml)
    (h : clrMapOvrChainSpec context = some ovr) :
    getSchemeColorFromTheme ("a:" ++ name) context none none =
      themeSlotValueSpec context ("a:" ++ physicalSlotNameSpec ovr name) := by
  simp only [clrMapOvrChainSpec] at h
  simp only [getSchemeColorFromTheme, stripSchemeName_append, jsTruthyStr, Bool.false_eq_true,
    and_false, if_false, themeSlotValueSpec, physicalSlotNameSpec]
  by_cases t1 : jsTruthyOpt (getTextByPathList context.slideContent
      ["p:sld", "p:clrMapOvr", "a:overrideClrMapping", "attrs"]) = true
  · simp only [t1, if_true] at h
    have htr : jsTruthy ovr = true := by rw [h] at t1; simpa [jsTruthyOpt] using t1
    simp only [t1, if_true, h, jsTruthyOpt, htr, Xml.getOpt]
    by_cases hn : name = "tx1" ∨ name = "tx2" ∨ name = "bg1" ∨ name = "bg2"
    · simp [hn]
    · simp [hn]
  · simp only [Bool.not_eq_true] at t1
    simp only [t1, Bool.false_eq_true, if_false] at h ⊢
    by_cases t2 : jsTruthyOpt (getTextByPathList context.slideLayoutContent
        ["p:sldLayout", "p:clrMapOvr", "a:overrideClrMapping", "attrs"]) = true
    · simp only [t2, if_true] at h
      have htr : jsTruthy ovr = true := by rw [h] at t2; simpa [jsTruthyOpt] using t2
      simp only [t2, if_true, h, jsTruthyOpt, htr, Xml.getOpt]
      by_cases hn : name = "tx1" ∨ name = "tx2" ∨ name = "bg1" ∨ name = "bg2"
      · simp [hn]
      · simp [hn]
    · simp only [Bool.not_eq_true] at t2
      simp only [t2, Bool.false_eq_true, if_false] at h ⊢
      by_cases t3 : jsTruthyOpt (getTextByPathList context.slideMasterContent
          ["p:sldMaster", "p:clrMap", "attrs"]) = true
      · simp only [t3, if_true] at h
        have htr : jsTruthy ovr = true := by rw [h] at t3; simpa [jsTruthyOpt] using t3
        simp only [h, jsTruthyOpt, htr, if_true, Xml.getOpt]
        by_cases hn : name = "tx1" ∨ name = "tx2" ∨ name = "bg1" ∨ name = "bg2"
        · simp [hn]
        · simp [hn]
      · simp only [Bool.not_eq_true] at t3
        simp only [t3, Bool.false_eq_true, if_false] at h
        exact absurd h (by simp)

/-- C6 witness: `a:tx1` resolved against a context whose master color map
sends `tx1` to `dk1`, whose theme defines `a:dk1` as `112233`. -/
theorem C6_witness :
    clrMapOvrChainSpec ctxSchemeW = some masterClrMapW
    ∧ getSchemeColorFromTheme ("a:" ++ "tx1") ctxSchemeW none none =
      themeSlotValueSpec ctxSchemeW ("a:" ++ physicalSlotNameSpec masterClrMapW "tx1") :=
  ⟨by rfl, C6_scheme_color_resolution ctxSchemeW "tx1" masterClrMapW (by rfl)⟩

/-- A `clrNode` returned by `parseBaseColor` is always JS-truthy (it is
the truthiness-tested child that selected the branch). -/
theorem parseBaseColor_clrNode_truthy {solidFill : Xml} {context : ParsingContext}
    {clrMap : Option Xml} {phClr : Option String} {c : String} {n : Xml}
    (h : parseBaseColor solidFill context clrMap phClr = { color := c, clrNode := some n }) :
    jsTruthy n = true := by
  simp only [parseBaseColor] at h
  split_ifs at h with h1 h2 h3 h4 h5 h6 <;>
    (have hcn := congrArg ColorParseResult.clrNode h; dsimp only at hcn)
  · rw [hcn] at h1; simpa [jsTruthyOpt] using h1
  · rw [hcn] at h2; simpa [jsTruthyOpt] using h2
  · rw [hcn] at h3; simpa [jsTruthyOpt] using h3
  · rw [hcn] at h4; simpa [jsTruthyOpt] using h4
  · rw [hcn] at h5; simpa [jsTruthyOpt] using h5
  · rw [hcn] at h6; simpa [jsTruthyOpt] using h6
  · exact absurd hcn (by simp)

/-- With `mergeAlpha = false`, the alpha returned by `applyColorModifiers`
is exactly the parsed `a:alpha` modifier value. -/
theorem applyColorModifiers_alpha (color : String) (clrNode : Xml) :
    (applyColorModifiers color clrNode false).alpha = parseModVal clrNode "a:alpha" := by
  simp only [applyColorModifiers]
  cases parseModVal clrNode "a:alpha" <;> simp

/-- C4 (amended): for a solid fill whose base color parses to a non-empty
color with a color node, the alpha field returned by
`resolveSolidFillWithAlpha` is present *iff* the color node has an
`a:alpha` child whose `val` parses as an integer, and its value is
`val / 100000` — including `1` for the fully-opaque `val = 100000` and `0`
for the fully-transparent `val = 0` (which yields a fill record, not
absence of fill). -/
theorem C4_alpha_presence_formula (solidFill : Xml) (context : ParsingContext)
    (clrMap : Option Xml) (phClr : Option String) (c : String) (n : Xml)
    (h1 : parseBaseColor solidFill context clrMap phClr = { color := c, clrNode := some n })
    (h2 : c ≠ "") :
    (resolveSolidFillWithAlpha (some solidFill) context clrMap phClr).alpha =
      (parseIntTS (jsOrString (getTextByPathList (some n) ["a:alpha", "attrs", "val"]) "")).map
        (fun v => (v : ℚ) / 100000) := by
  have ht := parseBaseColor_clrNode_truthy h1
  simp only [resolveSolidFillWithAlpha]
  rw [h1]
  rw [dif_neg (fun hcc => h2 hcc.1)]
  simp only [ht, h2, ne_eq, not_false_iff, true_and, and_true, if_true]
  simp only [applyColorModifiers_alpha, parseModVal]

/-- C4 witness for the amended formula: a 50% alpha modifier. -/
theorem C4_witness :
    (parseBaseColor (srgbWithAlpha "50000") createDefaultParsingContext none none
        = { color := "FF0000", clrNode := some (srgbClrNode "50000") }
      ∧ ("FF0000" : String) ≠ "")
    ∧ (resolveSolidFillWithAlpha (some (srgbWithAlpha "50000")) createDefaultParsingContext
        none none).alpha =
      (parseIntTS (jsOrString (getTextByPathList (some (srgbClrNode "50000"))
        ["a:alpha", "attrs", "val"]) "")).map (fun v => (v : ℚ) / 100000) :=
  ⟨⟨by rfl, by decide⟩,
    C4_alpha_presence_formula (srgbWithAlpha "50000") createDefaultParsingContext none none
      "FF0000" (srgbClrNode "50000") (by rfl) (by decide)⟩

end PPTist
